import Mathlib

/-!
Klondike solitaire rules engine: a verification development.

A shallow embedding of `src/Solitaire.cpp`.  A `std::vector<Card>` is a `List Card`
whose last element is the top of the pile (`back()`), C++ `int`s are `Int`s, and a
function that may index a vector out of range returns an `Option`, where `none`
stands for the undefined behaviour of the out-of-range access.

Pixel geometry is floating point and its layout constants live in a header outside
`src/`; every geometric test the handlers make on a pointer position is therefore a
field of `Pointer`, and the theorems hold for every outcome of those tests.
-/

namespace Klondike

/-! ## Cards -/

/-- The four suits, in the order of the `suits[]` array of `loadCards`. -/
inductive Suit where
  | hearts
  | diamonds
  | clubs
  | spades
deriving DecidableEq, Repr

/-- A card: its suit, its numeric value (`getValue()`, a C++ `int`) and its face state.
Position and texture are presentation data and are left out. -/
structure Card where
  suit : Suit
  value : Int
  faceUp : Bool
deriving DecidableEq, Repr

namespace Card

/-- Modelled from the spec: `Card::getSuit` (its body is in Card.cpp, not under src/),
a pure accessor. -/
def getSuit (c : Card) : Suit := c.suit

/-- Modelled from the spec: `Card::getValue` (Card.cpp), a pure accessor of the rank,
1 = ace, 11 = jack, 12 = queen, 13 = king. -/
def getValue (c : Card) : Int := c.value

/-- Modelled from the spec: `Card::isFaceUp` (Card.cpp), a pure accessor. -/
def isFaceUp (c : Card) : Bool := c.faceUp

/-- Modelled from the spec: `Card::isRed` (Card.cpp), red if the suit is hearts or
diamonds. -/
def isRed (c : Card) : Bool :=
  match c.suit with
  | Suit.hearts => true
  | Suit.diamonds => true
  | Suit.clubs => false
  | Suit.spades => false

/-- Modelled from the spec: `Card::flip` (Card.cpp) toggles the face-up flag and has no
other effect. -/
def flip (c : Card) : Card := { c with faceUp := !c.faceUp }

/-- The identity of a card: its (suit, rank) pair. -/
def ident (c : Card) : Suit × Int := (c.suit, c.value)

end Card

/-! ## Move validator -/

/-- `Solitaire::canMoveToTableau` (lines 217-231). -/
def canMoveToTableau (card : Card) (targetPile : List Card) : Bool :=
  match targetPile.getLast? with
  | none => card.getValue == 13
  | some topCard =>
    (card.isRed != topCard.isRed) && (card.getValue == topCard.getValue - 1)

/-- `Solitaire::canMoveToFoundation` (lines 249-256). -/
def canMoveToFoundation (card : Card) (targetPile : List Card) : Bool :=
  match targetPile.getLast? with
  | none => card.getValue == 1
  | some topCard =>
    (card.getSuit == topCard.getSuit) && (card.getValue == topCard.getValue + 1)


/-! ## Piles and the session state -/

/-- What a `std::vector<Card>*` of the session can point at: one of the tableau piles,
one of the foundation piles, the stock or the waste. -/
inductive PileRef where
  | tableau (i : Nat)
  | foundation (i : Nat)
  | stock
  | waste
deriving DecidableEq, Repr

/-- The data members of `class Solitaire` that the rules engine reads and writes.
`none` in `draggedSourcePile` is `nullptr`; `lastDealTime` is the clock value, in
milliseconds, of the last deal from the stock. `dragOffset` and `menuOpen` are
presentation state and are left out. -/
structure Solitaire where
  tableau : List (List Card)
  foundations : List (List Card)
  stock : List Card
  waste : List Card
  draggedCards : List Card
  draggedSourcePile : Option PileRef
  draggedStartIndex : Int
  gameWon : Bool
  lastDealTime : Int
deriving DecidableEq, Repr

/-- Every test a handler makes on a pointer position `pos`.  The layout constants and
`CheckCollisionPointRec` are floating point and declared outside `src/`, so the outcome
of each test is a field:
* `inStockRect`: `CheckCollisionPointRec(pos, stockRect)`;
* `inColumn i`: `x <= pos.x && pos.x <= x + CARD_WIDTH` for tableau column `i`;
* `rowIndex`: `(clickedY - baseY) / CARD_SPACING` converted to `int`;
* `onTableauCard i j`: `pos` collides with the rectangle of card `j` of tableau pile `i`;
* `inTableauSlot i`: `pos` collides with the empty-slot rectangle of tableau pile `i`;
* `inFoundationBox i`: the x-range and y-range test of foundation `i`;
* `onFoundationCard i`: `pos` collides with the top card of foundation `i`;
* `inFoundationSlot i`: `pos` collides with the empty-slot rectangle of foundation `i`;
* `onWasteCard`: `pos` collides with the top card of the waste;
* `inWasteSlot`: `pos` collides with the empty-slot rectangle of the waste. -/
structure Pointer where
  inStockRect : Bool
  inColumn : Nat → Bool
  rowIndex : Int
  onTableauCard : Nat → Nat → Bool
  inTableauSlot : Nat → Bool
  inFoundationBox : Nat → Bool
  onFoundationCard : Nat → Bool
  inFoundationSlot : Nat → Bool
  onWasteCard : Bool
  inWasteSlot : Bool

namespace Solitaire

/-- The vector a pile pointer points at; `none` when the index is outside the outer
vector (dereferencing it is undefined). -/
def pileAt (s : Solitaire) : PileRef → Option (List Card)
  | PileRef.tableau i => s.tableau[i]?
  | PileRef.foundation i => s.foundations[i]?
  | PileRef.stock => some s.stock
  | PileRef.waste => some s.waste

/-- Writing a vector back through a pile pointer. -/
def setPile (s : Solitaire) (r : PileRef) (pile : List Card) : Solitaire :=
  match r with
  | PileRef.tableau i => { s with tableau := s.tableau.set i pile }
  | PileRef.foundation i => { s with foundations := s.foundations.set i pile }
  | PileRef.stock => { s with stock := pile }
  | PileRef.waste => { s with waste := pile }

end Solitaire

/-! ## Move execution -/

/-- The loop `for (int i = startIndex; i <= endIndex; i++) targetPile.push_back(sourcePile[i]);`
of `moveCards`, with `count` iterations still to run and `i` the current index.  Reading
`sourcePile[i]` outside the vector is undefined: `none`. -/
def copyCards (sourcePile : List Card) : Nat → Nat → List Card → Option (List Card)
  | 0, _, targetPile => some targetPile
  | count + 1, i, targetPile =>
    match sourcePile[i]? with
    | none => none
    | some card => copyCards sourcePile count (i + 1) (targetPile ++ [card])

/-- The call `pile.erase(pile.begin() + first, pile.begin() + last)`; it is defined only
for a valid range `0 <= first <= last <= size`. -/
def eraseRange (pile : List Card) (first last : Int) : Option (List Card) :=
  if 0 ≤ first ∧ first ≤ last ∧ last ≤ (pile.length : Int) then
    some (pile.take first.toNat ++ pile.drop last.toNat)
  else
    none

/-- The statement `if (!pile.empty() && !pile.back().isFaceUp()) pile.back().flip();`. -/
def flipBack (pile : List Card) : List Card :=
  match pile.getLast? with
  | none => pile
  | some top => if !top.isFaceUp then pile.dropLast ++ [top.flip] else pile

/-- What a call of `moveCards` leaves behind: the returned flag and the two vectors. -/
structure MoveOutcome where
  moved : Bool
  sourcePile : List Card
  targetPile : List Card
deriving DecidableEq, Repr

/-- `Solitaire::moveCards` (lines 258-280) on two distinct vectors.  The default
argument `endIndex = -1` is passed explicitly.  `none` is an out-of-range access or an
invalid erase range. -/
def moveCards (sourcePile targetPile : List Card) (startIndex endIndex : Int) :
    Option MoveOutcome :=
  if startIndex < 0 ∨ startIndex ≥ (sourcePile.length : Int) then
    some ⟨false, sourcePile, targetPile⟩
  else
    let endIndex := if endIndex = -1 then (sourcePile.length : Int) - 1 else endIndex
    match copyCards sourcePile (endIndex + 1 - startIndex).toNat startIndex.toNat targetPile with
    | none => none
    | some targetPile =>
      match eraseRange sourcePile startIndex (endIndex + 1) with
      | none => none
      | some sourcePile => some ⟨true, flipBack sourcePile, targetPile⟩

/-- The copy loop of `moveCards` when both references name the same vector: each
iteration reads from the vector as grown so far. -/
def copyCardsSelf : Nat → Nat → List Card → Option (List Card)
  | 0, _, pile => some pile
  | count + 1, i, pile =>
    match pile[i]? with
    | none => none
    | some card => copyCardsSelf count (i + 1) (pile ++ [card])

/-- `Solitaire::moveCards` (lines 258-280) when `sourcePile` and `targetPile` are the same
vector. -/
def moveCardsSelf (pile : List Card) (startIndex endIndex : Int) : Option (Bool × List Card) :=
  if startIndex < 0 ∨ startIndex ≥ (pile.length : Int) then
    some (false, pile)
  else
    let endIndex := if endIndex = -1 then (pile.length : Int) - 1 else endIndex
    match copyCardsSelf (endIndex + 1 - startIndex).toNat startIndex.toNat pile with
    | none => none
    | some pile =>
      match eraseRange pile startIndex (endIndex + 1) with
      | none => none
      | some pile => some (true, flipBack pile)

namespace Solitaire

/-- The call `moveCards(*source, *target, startIndex, endIndex)` on the session's piles. -/
def moveCardsAt (s : Solitaire) (source target : PileRef) (startIndex endIndex : Int) :
    Option (Bool × Solitaire) :=
  match s.pileAt source, s.pileAt target with
  | some sourcePile, some targetPile =>
    if source = target then
      match moveCardsSelf sourcePile startIndex endIndex with
      | none => none
      | some (moved, pile) => some (moved, s.setPile source pile)
    else
      match moveCards sourcePile targetPile startIndex endIndex with
      | none => none
      | some out => some (out.moved, (s.setPile source out.sourcePile).setPile target out.targetPile)
  | _, _ => none

end Solitaire

/-! ## New game: loading, shuffling and dealing -/

/-- The environment of `loadCards`: `available suit value` tells whether the image file
of that card is found on one of the two paths tried (`FileExists`), and `shuffle` is the
reordering `std::shuffle` performs on the loaded deck. -/
structure Assets where
  available : Suit → Int → Bool
  shuffle : List Card → List Card

/-- The `suits[]` array of `loadCards`. -/
def suits : List Suit := [Suit.hearts, Suit.diamonds, Suit.clubs, Suit.spades]

/-- The `values[]` array of `loadCards` ("ace", "2", ..., "10", "jack", "queen", "king"),
as the ranks the cards report.
Modelled from the spec: the `Card` constructor (Card.cpp) gives the value names the
ranks 1 to 13 and builds every card face-down. -/
def values : List Int := [1, 2, 3, 4, 5, 6, 7, 8, 9, 10, 11, 12, 13]

/-- Modelled from the spec: the constructor `Card(suit, value, imagePath)` (Card.cpp): a
face-down card of that suit and rank. -/
def Card.create (suit : Suit) (value : Int) : Card := ⟨suit, value, false⟩

/-- The inner loop `for (const auto& value : values)` of `loadCards` for one suit:
a card is appended to the stock unless its image is missing (`continue`). -/
def loadValues (env : Assets) (suit : Suit) : List Int → List Card → List Card
  | [], stock => stock
  | value :: rest, stock =>
    if env.available suit value then
      loadValues env suit rest (stock ++ [Card.create suit value])
    else
      loadValues env suit rest stock

/-- The outer loop `for (const auto& suit : suits)` of `loadCards`. -/
def loadSuits (env : Assets) : List Suit → List Card → List Card
  | [], stock => stock
  | suit :: rest, stock => loadSuits env rest (loadValues env suit values stock)

namespace Solitaire

/-- `Solitaire::loadCards` (lines 90-118): append the cards whose image is found to the
stock, then shuffle the stock. -/
def loadCards (env : Assets) (s : Solitaire) : Solitaire :=
  { s with stock := env.shuffle (loadSuits env suits s.stock) }

/-- The inner loop `for (int j = i; j < 7; j++)` of `dealCards`, with `count` iterations
still to run: while the stock is non-empty its back card is popped, flipped when
`j == i`, and pushed on `tableau[j]`. -/
def dealRow (i : Nat) : Nat → Nat → Solitaire → Option Solitaire
  | 0, _, s => some s
  | count + 1, j, s =>
    match s.stock.getLast? with
    | none => dealRow i count (j + 1) s
    | some top =>
      let card := if j = i then top.flip else top
      match s.tableau[j]? with
      | none => none
      | some pile =>
        dealRow i count (j + 1)
          { s with stock := s.stock.dropLast, tableau := s.tableau.set j (pile ++ [card]) }

/-- The outer loop `for (int i = 0; i < 7; i++)` of `dealCards`, with `count` iterations
still to run. -/
def dealRows : Nat → Nat → Solitaire → Option Solitaire
  | 0, _, s => some s
  | count + 1, i, s =>
    match dealRow i (7 - i) i s with
    | none => none
    | some s1 => dealRows count (i + 1) s1

/-- `Solitaire::dealCards` (lines 120-136). -/
def dealCards (s : Solitaire) : Option Solitaire := dealRows 7 0 s

/-- `Solitaire::resetGame` (lines 73-88): clear everything, resize the tableau to 7 and
the foundations to 4 empty piles, load and shuffle the deck, deal. -/
def resetGame (env : Assets) (s : Solitaire) : Option Solitaire :=
  dealCards (loadCards env
    { s with
      tableau := List.replicate 7 []
      foundations := List.replicate 4 []
      stock := []
      waste := []
      draggedCards := []
      draggedSourcePile := none
      gameWon := false })

end Solitaire

/-! ## Hit testing -/

/-- The loop `for (size_t j = 0; j < tableau[i].size(); j++)` of `getPileAtPos` over the
cards of tableau pile `i` from index `j` on: true when some face-up card's rectangle
contains the pointer. -/
def hitsFaceUpCard (pos : Pointer) (i : Nat) : Nat → List Card → Bool
  | _, [] => false
  | j, card :: rest =>
    if card.isFaceUp && pos.onTableauCard i j then true
    else hitsFaceUpCard pos i (j + 1) rest

namespace Solitaire

/-- The first loop of `getPileAtPos` (lines 140-166), with `count` tableau piles still
to visit from pile `i`.  The outer `Option` is `none` for an access outside the tableau
vector; the inner one is the pile found, if any. -/
def tableauAtPos (s : Solitaire) (pos : Pointer) : Nat → Nat → Option (Option PileRef)
  | 0, _ => some none
  | count + 1, i =>
    if pos.inColumn i then
      match s.tableau[i]? with
      | none => none
      | some pile =>
        if !pile.isEmpty then
          if hitsFaceUpCard pos i 0 pile then some (some (PileRef.tableau i))
          else tableauAtPos s pos count (i + 1)
        else
          if pos.inTableauSlot i then some (some (PileRef.tableau i))
          else tableauAtPos s pos count (i + 1)
    else tableauAtPos s pos count (i + 1)

/-- The second loop of `getPileAtPos` (lines 169-188), with `count` foundations still to
visit from foundation `i`. -/
def foundationAtPos (s : Solitaire) (pos : Pointer) : Nat → Nat → Option (Option PileRef)
  | 0, _ => some none
  | count + 1, i =>
    if pos.inFoundationBox i then
      match s.foundations[i]? with
      | none => none
      | some pile =>
        if !pile.isEmpty then
          if pos.onFoundationCard i then some (some (PileRef.foundation i))
          else foundationAtPos s pos count (i + 1)
        else
          if pos.inFoundationSlot i then some (some (PileRef.foundation i))
          else foundationAtPos s pos count (i + 1)
    else foundationAtPos s pos count (i + 1)

/-- `Solitaire::getPileAtPos` (lines 138-215): tableau piles first, then foundations,
then the stock, then the waste; `some none` is the `nullptr` result. -/
def getPileAtPos (s : Solitaire) (pos : Pointer) : Option (Option PileRef) :=
  match tableauAtPos s pos 7 0 with
  | none => none
  | some (some r) => some (some r)
  | some none =>
    match foundationAtPos s pos 4 0 with
    | none => none
    | some (some r) => some (some r)
    | some none =>
      if pos.inStockRect then some (some PileRef.stock)
      else if !s.waste.isEmpty then
        if pos.onWasteCard then some (some PileRef.waste) else some none
      else
        if pos.inWasteSlot then some (some PileRef.waste) else some none

end Solitaire

/-! ## Pointer down -/

/-- The loop `while (!waste.empty())` of `handleMouseDown` (lines 305-310): the back card
of the waste is popped, flipped and pushed on the stock.  `fuel` bounds the number of
iterations; the handler runs it with `waste.size()`.  The result is (waste, stock). -/
def restoreStock : Nat → List Card → List Card → List Card × List Card
  | 0, waste, stock => (waste, stock)
  | fuel + 1, waste, stock =>
    match waste.getLast? with
    | none => (waste, stock)
    | some card => restoreStock fuel waste.dropLast (stock ++ [card.flip])

/-- The index computation of `handleMouseDown` (lines 359-361): the row index is raised
to 0 when negative and replaced by `size - 1` when it is not below `size`. -/
def clampIndex (rowIndex : Int) (size : Nat) : Int :=
  let clickedIndex := if rowIndex < 0 then 0 else rowIndex
  if clickedIndex ≥ (size : Int) then (size : Int) - 1 else clickedIndex

/-- The subscript `pile[index]` with an `int` index: a negative index converts to a huge
`size_t`, so it is outside the vector like any index not below the size. -/
def cardAt (pile : List Card) (index : Int) : Option Card :=
  if index < 0 then none else pile[index.toNat]?

namespace Solitaire

/-- The stock branch of `handleMouseDown` (lines 303-327 and the `return` of line 344):
an empty stock is refilled from a non-empty waste, otherwise the top stock card, if any,
is flipped and put on the waste and the deal time is recorded. -/
def clickStock (s : Solitaire) (now : Int) : Solitaire :=
  if s.stock.isEmpty && !s.waste.isEmpty then
    let r := restoreStock s.waste.length s.waste s.stock
    { s with waste := r.1, stock := r.2 }
  else
    match s.stock.getLast? with
    | none => s
    | some top =>
      { s with stock := s.stock.dropLast, waste := s.waste ++ [top.flip], lastDealTime := now }

/-- The loop over the tableau columns of `handleMouseDown` (lines 348-385), with `count`
columns still to visit from column `i`.  `none` is the out-of-range read
`tableau[i][clickedIndex]`. -/
def pickTableau (pos : Pointer) : Nat → Nat → Solitaire → Option Solitaire
  | 0, _, s => some s
  | count + 1, i, s =>
    if pos.inColumn i then
      match s.tableau[i]? with
      | none => none
      | some pile =>
        let clickedIndex := clampIndex pos.rowIndex pile.length
        match cardAt pile clickedIndex with
        | none => none
        | some card =>
          if card.isFaceUp && pos.onTableauCard i clickedIndex.toNat then
            match copyCards pile (pile.length - clickedIndex.toNat) clickedIndex.toNat [] with
            | none => none
            | some lifted =>
              some { s with
                draggedCards := lifted
                draggedStartIndex := clickedIndex
                draggedSourcePile := some (PileRef.tableau i) }
          else if !s.draggedCards.isEmpty then some s
          else pickTableau pos count (i + 1) s
    else if !s.draggedCards.isEmpty then some s
    else pickTableau pos count (i + 1) s

/-- The waste check of `handleMouseDown` (lines 387-404). -/
def pickWaste (pos : Pointer) (s : Solitaire) : Solitaire :=
  if s.draggedCards.isEmpty && !s.waste.isEmpty then
    match s.waste.getLast? with
    | none => s
    | some top =>
      if pos.onWasteCard then
        { s with
          draggedCards := [top]
          draggedStartIndex := 0
          draggedSourcePile := some PileRef.waste }
      else s
  else s

/-- `Solitaire::handleMouseDown` (lines 282-405); `now` is the value of `GetTime()`. -/
def handleMouseDown (s : Solitaire) (pos : Pointer) (now : Int) : Option Solitaire :=
  if pos.inStockRect then some (clickStock s now)
  else
    match pickTableau pos 7 0 s with
    | none => none
    | some s1 => some (pickWaste pos s1)

end Solitaire

/-! ## Pointer up, double click, win check -/

/-- The loop of `findValidFoundationPile` over the foundations from index `i` on: the
index of the first foundation that accepts the card. -/
def findFoundationFrom (card : Card) : Nat → List (List Card) → Option Nat
  | _, [] => none
  | i, foundation :: rest =>
    if canMoveToFoundation card foundation then some i
    else findFoundationFrom card (i + 1) rest

/-- The loop of `checkWin` over the foundations. -/
def allKingsOnTop : List (List Card) → Bool
  | [] => true
  | foundation :: rest =>
    match foundation.getLast? with
    | none => false
    | some top => if top.getValue != 13 then false else allKingsOnTop rest

namespace Solitaire

/-- The two statements `draggedCards.clear(); draggedSourcePile = nullptr;`. -/
def clearDrag (s : Solitaire) : Solitaire :=
  { s with draggedCards := [], draggedSourcePile := none }

/-- The call `moveCards(*source, *target, source->size() - 1)`: the size is read through
the source pointer and `size() - 1` becomes the `int` start index (-1 for an empty pile). -/
def moveTopAt (s : Solitaire) (source target : PileRef) : Option (Bool × Solitaire) :=
  match s.pileAt source with
  | none => none
  | some sourcePile => moveCardsAt s source target ((sourcePile.length : Int) - 1) (-1)

/-- `Solitaire::handleMouseUp` (lines 407-474).  The `setPosition` calls of the snap-back
branches only touch presentation data.  `none` is undefined behaviour: an access outside
a vector or the dereference of a null `draggedSourcePile`. -/
def handleMouseUp (s : Solitaire) (pos : Pointer) : Option Solitaire :=
  match s.draggedCards.head? with
  | none => some s
  | some first =>
    match getPileAtPos s pos with
    | none => none
    | some none => some (clearDrag s)
    | some (some target) =>
      if some target = s.draggedSourcePile then some (clearDrag s)
      else
        match s.pileAt target with
        | none => none
        | some targetPile =>
          if canMoveToTableau first targetPile then
            match s.draggedSourcePile with
            | none => none
            | some source =>
              if source = PileRef.waste then
                match moveTopAt s source target with
                | none => none
                | some r => some (clearDrag r.2)
              else
                match moveCardsAt s source target s.draggedStartIndex (-1) with
                | none => none
                | some r => some (clearDrag r.2)
          else if s.draggedCards.length == 1 && canMoveToFoundation first targetPile then
            match s.draggedSourcePile with
            | none => none
            | some source =>
              match moveTopAt s source target with
              | none => none
              | some r => some (clearDrag r.2)
          else some (clearDrag s)

/-- `Solitaire::findValidFoundationPile` (lines 495-502). -/
def findValidFoundationPile (s : Solitaire) (card : Card) : Option PileRef :=
  match findFoundationFrom card 0 s.foundations with
  | none => none
  | some i => some (PileRef.foundation i)

/-- `Solitaire::handleDoubleClick` (lines 476-493); `now` is the value of `GetTime()` in
milliseconds, so the 0.5 second delay is 500. -/
def handleDoubleClick (s : Solitaire) (pos : Pointer) (now : Int) : Option Solitaire :=
  match getPileAtPos s pos with
  | none => none
  | some none => some s
  | some (some pileRef) =>
    match s.pileAt pileRef with
    | none => none
    | some pile =>
      match pile.getLast? with
      | none => some s
      | some card =>
        if pileRef = PileRef.waste ∧ now - s.lastDealTime < 500 then some s
        else if !card.isFaceUp then some s
        else
          match findValidFoundationPile s card with
          | none => some s
          | some foundationPile =>
            match moveTopAt s pileRef foundationPile with
            | none => none
            | some r => some r.2

/-- `Solitaire::checkWin` (lines 504-511). -/
def checkWin (s : Solitaire) : Bool := allKingsOnTop s.foundations

end Solitaire

/-! ## Events -/

/-- The input events of a session: a pointer-down (a stock click is a pointer-down
inside the stock rectangle), a pointer-up and a double click, with the clock value
where the handler reads the clock. -/
inductive Event where
  | pointerDown (pos : Pointer) (now : Int)
  | pointerUp (pos : Pointer)
  | doubleClick (pos : Pointer) (now : Int)

/-- A pointer-down inside the stock rectangle. -/
def Event.isStockClick : Event → Bool
  | Event.pointerDown pos _ => pos.inStockRect
  | Event.pointerUp _ => false
  | Event.doubleClick _ _ => false

namespace Solitaire

/-- Dispatch of one event to its handler. -/
def handle (s : Solitaire) : Event → Option Solitaire
  | Event.pointerDown pos now => handleMouseDown s pos now
  | Event.pointerUp pos => handleMouseUp s pos
  | Event.doubleClick pos now => handleDoubleClick s pos now

/-- A sequence of events handled one after the other; `none` as soon as one handler
has undefined behaviour. -/
def run (s : Solitaire) : List Event → Option Solitaire
  | [] => some s
  | e :: rest =>
    match handle s e with
    | none => none
    | some s1 => run s1 rest

end Solitaire

/-! ## The calls of `moveCards` -/

namespace Solitaire

/-- The call `moveCards(*source, *target, startIndex)` that `handleMouseUp` makes (lines
444, 446 and 451), as (source, target, startIndex); `none` when it makes no call. -/
def mouseUpCall (s : Solitaire) (pos : Pointer) : Option (PileRef × PileRef × Int) :=
  match s.draggedCards.head? with
  | none => none
  | some first =>
    match getPileAtPos s pos with
    | none => none
    | some none => none
    | some (some target) =>
      if some target = s.draggedSourcePile then none
      else
        match s.pileAt target with
        | none => none
        | some targetPile =>
          if canMoveToTableau first targetPile then
            match s.draggedSourcePile with
            | none => none
            | some source =>
              if source = PileRef.waste then
                match s.pileAt source with
                | none => none
                | some sourcePile => some (source, target, (sourcePile.length : Int) - 1)
              else some (source, target, s.draggedStartIndex)
          else if s.draggedCards.length == 1 && canMoveToFoundation first targetPile then
            match s.draggedSourcePile with
            | none => none
            | some source =>
              match s.pileAt source with
              | none => none
              | some sourcePile => some (source, target, (sourcePile.length : Int) - 1)
          else none

/-- The call `moveCards(*pile, *foundationPile, pile->size() - 1)` that
`handleDoubleClick` makes (line 491), as (source, target, startIndex); `none` when it
makes no call. -/
def doubleClickCall (s : Solitaire) (pos : Pointer) (now : Int) :
    Option (PileRef × PileRef × Int) :=
  match getPileAtPos s pos with
  | none => none
  | some none => none
  | some (some pileRef) =>
    match s.pileAt pileRef with
    | none => none
    | some pile =>
      match pile.getLast? with
      | none => none
      | some card =>
        if pileRef = PileRef.waste ∧ now - s.lastDealTime < 500 then none
        else if !card.isFaceUp then none
        else
          match findValidFoundationPile s card with
          | none => none
          | some foundationPile => some (pileRef, foundationPile, (pile.length : Int) - 1)

end Solitaire


/-! ## The frame update -/

/-- What one call of `update` finds in the input: whether the menu click of this frame
ran "New Game" (`resetGame`, in the given environment), whether the button was released
and where, and whether a double click was detected (a press without movement less
than 300 ms after the previous press), with its position and clock value.  The menu
state, "Save", "Load" and "Quit" (which ends the program) are left out. -/
structure Frame where
  newGame : Option Assets
  released : Option Pointer
  doubleClick : Option (Pointer × Int)

namespace Solitaire

/-- The last statement of `update` (lines 580-582): `if (checkWin()) gameWon = true;`. -/
def winCheck (s : Solitaire) : Solitaire :=
  if s.checkWin then { s with gameWon := true } else s

/-- `Solitaire::update` (lines 555-583): the menu click, the pointer-up, the double
click, then the win check. -/
def update (s : Solitaire) (f : Frame) : Option Solitaire :=
  let afterMenu :=
    match f.newGame with
    | some env => s.resetGame env
    | none => some s
  match afterMenu with
  | none => none
  | some s1 =>
    let afterRelease :=
      match f.released with
      | some pos => s1.handleMouseUp pos
      | none => some s1
    match afterRelease with
    | none => none
    | some s2 =>
      let afterDoubleClick :=
        match f.doubleClick with
        | some click => s2.handleDoubleClick click.1 click.2
        | none => some s2
      match afterDoubleClick with
      | none => none
      | some s3 => some s3.winCheck

end Solitaire


/-! ## Layout predicates, reachable sessions -/

/-- The shape of a freshly dealt tableau pile: the top card is face-up and every card
below it is face-down. -/
def topUpRestDown (pile : List Card) : Prop :=
  ∃ below top, pile = below ++ [top] ∧ top.faceUp = true ∧ ∀ c ∈ below, c.faceUp = false

/-- The Klondike layout after a deal: 7 tableau piles, pile `i` holding `i + 1` cards with
only its top card face-up, 28 tableau cards in all, and 24 face-down cards in the stock. -/
def dealtLayout (s : Solitaire) : Prop :=
  s.tableau.length = 7 ∧
  (∀ i, i < 7 → ∃ pile, s.tableau[i]? = some pile ∧ pile.length = i + 1 ∧ topUpRestDown pile) ∧
  (s.tableau.map List.length).sum = 28 ∧
  s.stock.length = 24 ∧
  ∀ c ∈ s.stock, c.faceUp = false

/-- The environment in which every card image is found and the shuffle happens to leave
the deck in loading order. -/
def plainAssets : Assets :=
  { available := fun _ _ => true
    shuffle := fun deck => deck }

/-- A session with no cards at all, as before the first `resetGame`. -/
def blank : Solitaire :=
  { tableau := []
    foundations := []
    stock := []
    waste := []
    draggedCards := []
    draggedSourcePile := none
    draggedStartIndex := 0
    gameWon := false
    lastDealTime := 0 }

/-- The session just before `dealCards` in a new game under `plainAssets`: the 52 cards
face-down in the stock, 7 empty tableau piles, 4 empty foundations. -/
def loadedDeck : Solitaire :=
  Solitaire.loadCards plainAssets
    { blank with tableau := List.replicate 7 [], foundations := List.replicate 4 [] }


/-- Reachable sessions: a new game dealt by `resetGame` from a full deck (every card
image found, the shuffle a permutation), followed by any events. -/
inductive Reachable : Solitaire → Prop where
  | newGame (env : Assets) (s0 s : Solitaire)
      (havail : ∀ suit value, env.available suit value = true)
      (hperm : ∀ deck, (env.shuffle deck).Perm deck)
      (hreset : s0.resetGame env = some s) : Reachable s
  | event (s s1 : Solitaire) (e : Event) (hs : Reachable s)
      (hstep : s.handle e = some s1) : Reachable s1

/-- A foundation built as the rules ask: empty, or cards of a single suit whose ranks
from bottom to top are 1, 2, ..., k with k at most 13. -/
def foundationBuilt (pile : List Card) : Bool :=
  (pile.map Card.getValue == (List.range pile.length).map (fun k => (k : Int) + 1)) &&
  pile.all (fun c => some c.getSuit == pile.head?.map Card.getSuit) &&
  decide (pile.length ≤ 13)


/-! ## Concrete piles and sessions used as instances -/

/-- A tableau pile used as a concrete source: a face-down king of diamonds under a
face-up eight of hearts and seven of clubs. -/
def exampleSource : List Card :=
  [⟨Suit.diamonds, 13, false⟩, ⟨Suit.hearts, 8, true⟩, ⟨Suit.clubs, 7, true⟩]

/-- A tableau pile used as a concrete target: a face-up nine of clubs. -/
def exampleTarget : List Card := [⟨Suit.clubs, 9, true⟩]

/-- A pointer position inside the stock rectangle and outside everything else. -/
def onStock : Pointer :=
  { inStockRect := true
    inColumn := fun _ => false
    rowIndex := 0
    onTableauCard := fun _ _ => false
    inTableauSlot := fun _ => false
    inFoundationBox := fun _ => false
    onFoundationCard := fun _ => false
    inFoundationSlot := fun _ => false
    onWasteCard := false
    inWasteSlot := false }

/-- A session whose stock is the three face-down cards A = ace of hearts, B = two of
clubs, C = three of spades (C on top) and whose other piles are empty. -/
def threeCardStock : Solitaire :=
  { tableau := List.replicate 7 []
    foundations := List.replicate 4 []
    stock := [⟨Suit.hearts, 1, false⟩, ⟨Suit.clubs, 2, false⟩, ⟨Suit.spades, 3, false⟩]
    waste := []
    draggedCards := []
    draggedSourcePile := none
    draggedStartIndex := 0
    gameWon := false
    lastDealTime := 0 }


/-- The event list of `k` successive stock clicks (at clock values 0). -/
def stockClicks (k : Nat) : List Event := List.replicate k (Event.pointerDown onStock 0)


/-- A pointer position on the first card of tableau column 0 (which is also the place of
the column's empty-slot rectangle). -/
def onFirstTableauCard : Pointer :=
  { inStockRect := false
    inColumn := fun i => i == 0
    rowIndex := 0
    onTableauCard := fun i j => i == 0 && j == 0
    inTableauSlot := fun i => i == 0
    inFoundationBox := fun _ => false
    onFoundationCard := fun _ => false
    inFoundationSlot := fun _ => false
    onWasteCard := false
    inWasteSlot := false }

/-- A pointer position on foundation 0: inside its box, hence inside the x-range of
tableau column 0 (both start at the same x), above every tableau card. -/
def onFirstFoundation : Pointer :=
  { inStockRect := false
    inColumn := fun i => i == 0
    rowIndex := 0
    onTableauCard := fun _ _ => false
    inTableauSlot := fun _ => false
    inFoundationBox := fun i => i == 0
    onFoundationCard := fun i => i == 0
    inFoundationSlot := fun i => i == 0
    onWasteCard := false
    inWasteSlot := false }

/-- The king of spades, face-up. -/
def kingOfSpades : Card := ⟨Suit.spades, 13, true⟩

/-- A new game under `plainAssets`: the king of spades, loaded last, is dealt first and
lies face-up alone on tableau pile 0. -/
def plainGame : Option Solitaire := blank.resetGame plainAssets

/-- The gesture that drags the card of tableau pile 0 onto foundation 0. -/
def dragToFoundation : List Event :=
  [Event.pointerDown onFirstTableauCard 0, Event.pointerUp onFirstFoundation]


/-- A pointer position outside every rectangle the handlers test. -/
def nowhere : Pointer :=
  { inStockRect := false
    inColumn := fun _ => false
    rowIndex := 0
    onTableauCard := fun _ _ => false
    inTableauSlot := fun _ => false
    inFoundationBox := fun _ => false
    onFoundationCard := fun _ => false
    inFoundationSlot := fun _ => false
    onWasteCard := false
    inWasteSlot := false }

/-- The new game `plainGame` after a pointer-down on the king of spades of tableau
pile 0: the king is lifted. -/
def kingLifted : Solitaire :=
  (plainGame.bind fun s => s.handleMouseDown onFirstTableauCard 0).getD blank


/-- A pointer position on the top card (index 6) of tableau column 6. -/
def onSeventhPileTop : Pointer :=
  { inStockRect := false
    inColumn := fun i => i == 6
    rowIndex := 6
    onTableauCard := fun i j => i == 6 && j == 6
    inTableauSlot := fun _ => false
    inFoundationBox := fun _ => false
    onFoundationCard := fun _ => false
    inFoundationSlot := fun _ => false
    onWasteCard := false
    inWasteSlot := false }

/-- The new game `plainGame` after a pointer-down on the top card of tableau pile 6, the
queen of diamonds: the queen is lifted. -/
def queenLifted : Solitaire :=
  (plainGame.bind fun s => s.handleMouseDown onSeventhPileTop 0).getD blank

/-- Tableau pile 6 of `queenLifted`. -/
def seventhPile : List Card := queenLifted.tableau.getD 6 []


/-- A pointer position on the top card of the waste: outside the stock rectangle, inside
the x-range of tableau column 1 (the waste starts at the same x), far below the cards of
that column. -/
def onWaste : Pointer :=
  { inStockRect := false
    inColumn := fun i => i == 1
    rowIndex := 12
    onTableauCard := fun _ _ => false
    inTableauSlot := fun _ => false
    inFoundationBox := fun _ => false
    onFoundationCard := fun _ => false
    inFoundationSlot := fun _ => false
    onWasteCard := true
    inWasteSlot := true }

/-- The new game `plainGame` after two stock clicks: the waste holds the jack of diamonds
under the ten of diamonds, both face-up. -/
def twoOnWaste : Solitaire :=
  (plainGame.bind fun s => s.run (stockClicks 2)).getD blank


/-- A solved layout not yet seen by `update`: every foundation holds its suit from ace to
king, every other pile is empty, `gameWon` is still false. -/
def solved : Solitaire :=
  { tableau := List.replicate 7 []
    foundations := suits.map fun suit => values.map fun value => ⟨suit, value, true⟩
    stock := []
    waste := []
    draggedCards := []
    draggedSourcePile := none
    draggedStartIndex := 0
    gameWon := false
    lastDealTime := 0 }

/-- A frame without any input. -/
def idleFrame : Frame := ⟨none, none, none⟩

/-- The solved layout after one `update`: the win has been recorded. -/
def wonGame : Solitaire := (solved.update idleFrame).getD blank


/-- The deck in loading order: what `loadCards` builds before shuffling when every card
image is found. -/
def plainDeck : List Card := loadSuits plainAssets suits []

/-! ## The cards of a session -/

/-- The identities of the cards of a pile, as a multiset. -/
def idents (pile : List Card) : Multiset (Suit × Int) := ((pile.map Card.ident : List (Suit × Int)) : Multiset (Suit × Int))

/-- Every card of the 7 tableau piles, the 4 foundations, the stock and the waste, pile
after pile. -/
def Solitaire.allCards (s : Solitaire) : List Card :=
  s.tableau.flatten ++ s.foundations.flatten ++ s.stock ++ s.waste

/-- The 52 (suit, rank) pairs of a full deck. -/
def deckIdents : List (Suit × Int) := plainDeck.map Card.ident

/-- A shuffled deck, bottom of the stock first.  Dealt from its back it puts the ace of
spades alone on tableau pile 0, the queen of diamonds on top of pile 1, the king of
spades on top of pile 2, and leaves the ace of hearts, the queen of hearts and the king
of clubs as the three top cards of the stock, ace uppermost. -/
def riggedDeck : List Card :=
  [
    ⟨Suit.diamonds, 11, false⟩, ⟨Suit.hearts, 2, false⟩, ⟨Suit.hearts, 3, false⟩, ⟨Suit.hearts, 4, false⟩,
    ⟨Suit.hearts, 5, false⟩, ⟨Suit.hearts, 6, false⟩, ⟨Suit.hearts, 7, false⟩, ⟨Suit.hearts, 8, false⟩,
    ⟨Suit.hearts, 9, false⟩, ⟨Suit.hearts, 10, false⟩, ⟨Suit.hearts, 11, false⟩, ⟨Suit.diamonds, 10, false⟩,
    ⟨Suit.hearts, 13, false⟩, ⟨Suit.diamonds, 1, false⟩, ⟨Suit.diamonds, 2, false⟩, ⟨Suit.diamonds, 3, false⟩,
    ⟨Suit.diamonds, 4, false⟩, ⟨Suit.diamonds, 5, false⟩, ⟨Suit.diamonds, 6, false⟩, ⟨Suit.diamonds, 7, false⟩,
    ⟨Suit.diamonds, 8, false⟩, ⟨Suit.clubs, 13, false⟩, ⟨Suit.hearts, 12, false⟩, ⟨Suit.hearts, 1, false⟩,
    ⟨Suit.spades, 6, false⟩, ⟨Suit.diamonds, 13, false⟩, ⟨Suit.clubs, 1, false⟩, ⟨Suit.clubs, 2, false⟩,
    ⟨Suit.clubs, 3, false⟩, ⟨Suit.clubs, 4, false⟩, ⟨Suit.clubs, 5, false⟩, ⟨Suit.clubs, 6, false⟩,
    ⟨Suit.clubs, 7, false⟩, ⟨Suit.clubs, 8, false⟩, ⟨Suit.clubs, 9, false⟩, ⟨Suit.clubs, 10, false⟩,
    ⟨Suit.clubs, 11, false⟩, ⟨Suit.clubs, 12, false⟩, ⟨Suit.spades, 13, false⟩, ⟨Suit.diamonds, 9, false⟩,
    ⟨Suit.spades, 2, false⟩, ⟨Suit.spades, 3, false⟩, ⟨Suit.spades, 4, false⟩, ⟨Suit.spades, 5, false⟩,
    ⟨Suit.diamonds, 12, false⟩, ⟨Suit.spades, 7, false⟩, ⟨Suit.spades, 8, false⟩, ⟨Suit.spades, 9, false⟩,
    ⟨Suit.spades, 10, false⟩, ⟨Suit.spades, 11, false⟩, ⟨Suit.spades, 12, false⟩, ⟨Suit.spades, 1, false⟩]

/-- The environment in which every card image is found and the shuffle turns the loaded
deck into `riggedDeck`. -/
def riggedAssets : Assets :=
  { available := fun _ _ => true
    shuffle := fun deck => if deck = plainDeck then riggedDeck else deck }

/-- The new game dealt from `riggedDeck`. -/
def riggedGame : Option Solitaire := blank.resetGame riggedAssets

/-- A pointer position on the top card (index 1) of tableau column 1. -/
def onSecondPileTop : Pointer :=
  { inStockRect := false
    inColumn := fun i => i == 1
    rowIndex := 1
    onTableauCard := fun i j => i == 1 && j == 1
    inTableauSlot := fun _ => false
    inFoundationBox := fun _ => false
    onFoundationCard := fun _ => false
    inFoundationSlot := fun _ => false
    onWasteCard := false
    inWasteSlot := false }

/-- A pointer position on the card at index 2 of tableau column 2. -/
def onThirdPileTop : Pointer :=
  { inStockRect := false
    inColumn := fun i => i == 2
    rowIndex := 2
    onTableauCard := fun i j => i == 2 && j == 2
    inTableauSlot := fun _ => false
    inFoundationBox := fun _ => false
    onFoundationCard := fun _ => false
    inFoundationSlot := fun _ => false
    onWasteCard := false
    inWasteSlot := false }

/-- A pointer position inside the stock rectangle, hence inside the x-range of tableau
column 0 (the stock starts at the same x), far below the cards of that column. -/
def overStock : Pointer :=
  { inStockRect := true
    inColumn := fun i => i == 0
    rowIndex := 12
    onTableauCard := fun _ _ => false
    inTableauSlot := fun _ => false
    inFoundationBox := fun _ => false
    onFoundationCard := fun _ => false
    inFoundationSlot := fun _ => false
    onWasteCard := false
    inWasteSlot := false }

/-- The ace of hearts, face-up. -/
def aceOfHearts : Card := ⟨Suit.hearts, 1, true⟩

/-- In `riggedGame`: the ace of hearts is dealt to the waste at time 0, the queen of
hearts at time 10000 ms, and the queen is then dragged from the waste onto the king of
spades of tableau pile 2. -/
def dealQueenAway : List Event :=
  [Event.pointerDown overStock 0, Event.pointerDown overStock 10000,
    Event.pointerDown onWaste 10050, Event.pointerUp onThirdPileTop]

/-- The session after `dealQueenAway`: the waste holds the ace of hearts alone. -/
def aceOnWaste : Solitaire := (riggedGame.bind fun s => s.run dealQueenAway).getD blank


/-- A tableau pile that is a run of face-down cards followed by a run of face-up cards:
after its leading face-down cards every card is face-up. -/
def faceDownThenUp (pile : List Card) : Bool :=
  (pile.dropWhile fun c => !c.isFaceUp).all Card.isFaceUp

/-- In `riggedGame`: two stock clicks bring the king of clubs to the top of the stock;
the queen of diamonds is dragged from tableau pile 1 and dropped on the stock; a stock
click deals her, flipped face-down, to the waste; she is dragged from the waste and
dropped on the king of spades of tableau pile 2. -/
def queenThroughStock : List Event :=
  [Event.pointerDown overStock 0, Event.pointerDown overStock 1000,
    Event.pointerDown onSecondPileTop 2000, Event.pointerUp overStock,
    Event.pointerDown overStock 3000,
    Event.pointerDown onWaste 4000, Event.pointerUp onThirdPileTop]

/-- The session `riggedGame` after a double click on the ace of spades of tableau pile 0:
the ace is on foundation 0 and tableau pile 0 is empty. -/
def emptyFirstPile : Solitaire :=
  (riggedGame.bind fun s => s.handleDoubleClick onFirstTableauCard 600).getD blank


/-- A pointer position on foundation 1: inside its box, hence inside the x-range of
tableau column 1, above every tableau card. -/
def onSecondFoundation : Pointer :=
  { inStockRect := false
    inColumn := fun i => i == 1
    rowIndex := 0
    onTableauCard := fun _ _ => false
    inTableauSlot := fun _ => false
    inFoundationBox := fun i => i == 1
    onFoundationCard := fun i => i == 1
    inFoundationSlot := fun i => i == 1
    onWasteCard := false
    inWasteSlot := false }

/-- In `riggedGame`: the ace of hearts is dealt to the waste at time 0; a press on the
waste at 1000 ms lifts it, and the same press, being the second of a double click, sends
it to foundation 0. -/
def liftThenDoubleClick : List Event :=
  [Event.pointerDown overStock 0, Event.pointerDown onWaste 1000,
    Event.doubleClick onWaste 1000]


/-- The session `riggedGame` after `liftThenDoubleClick`: the ace of hearts is on
foundation 0, the waste is empty, and the drag state still holds the ace as lifted from
the waste. -/
def staleDrag : Solitaire := (riggedGame.bind fun s => s.run liftThenDoubleClick).getD blank


/-- A second shuffled deck, bottom of the stock first.  Dealt from its back it puts the
two of spades on top of tableau pile 1 and the three of diamonds on top of tableau pile
2, and leaves the ace of hearts as the top card of the stock. -/
def stackedDeck : List Card :=
  [
    ⟨Suit.diamonds, 11, false⟩, ⟨Suit.hearts, 2, false⟩, ⟨Suit.hearts, 3, false⟩, ⟨Suit.hearts, 4, false⟩,
    ⟨Suit.hearts, 5, false⟩, ⟨Suit.hearts, 6, false⟩, ⟨Suit.hearts, 7, false⟩, ⟨Suit.hearts, 8, false⟩,
    ⟨Suit.hearts, 9, false⟩, ⟨Suit.hearts, 10, false⟩, ⟨Suit.hearts, 11, false⟩, ⟨Suit.hearts, 12, false⟩,
    ⟨Suit.hearts, 13, false⟩, ⟨Suit.diamonds, 1, false⟩, ⟨Suit.diamonds, 2, false⟩, ⟨Suit.clubs, 13, false⟩,
    ⟨Suit.diamonds, 4, false⟩, ⟨Suit.diamonds, 5, false⟩, ⟨Suit.diamonds, 6, false⟩, ⟨Suit.diamonds, 7, false⟩,
    ⟨Suit.diamonds, 8, false⟩, ⟨Suit.diamonds, 9, false⟩, ⟨Suit.diamonds, 10, false⟩, ⟨Suit.hearts, 1, false⟩,
    ⟨Suit.diamonds, 12, false⟩, ⟨Suit.diamonds, 13, false⟩, ⟨Suit.clubs, 1, false⟩, ⟨Suit.clubs, 2, false⟩,
    ⟨Suit.clubs, 3, false⟩, ⟨Suit.clubs, 4, false⟩, ⟨Suit.clubs, 5, false⟩, ⟨Suit.clubs, 6, false⟩,
    ⟨Suit.clubs, 7, false⟩, ⟨Suit.clubs, 8, false⟩, ⟨Suit.clubs, 9, false⟩, ⟨Suit.clubs, 10, false⟩,
    ⟨Suit.clubs, 11, false⟩, ⟨Suit.clubs, 12, false⟩, ⟨Suit.diamonds, 3, false⟩, ⟨Suit.spades, 1, false⟩,
    ⟨Suit.spades, 6, false⟩, ⟨Suit.spades, 3, false⟩, ⟨Suit.spades, 4, false⟩, ⟨Suit.spades, 5, false⟩,
    ⟨Suit.spades, 2, false⟩, ⟨Suit.spades, 7, false⟩, ⟨Suit.spades, 8, false⟩, ⟨Suit.spades, 9, false⟩,
    ⟨Suit.spades, 10, false⟩, ⟨Suit.spades, 11, false⟩, ⟨Suit.spades, 12, false⟩, ⟨Suit.spades, 13, false⟩]

/-- The environment in which every card image is found and the shuffle turns the loaded
deck into `stackedDeck`. -/
def stackedAssets : Assets :=
  { available := fun _ _ => true
    shuffle := fun deck => if deck = plainDeck then stackedDeck else deck }

/-- The new game dealt from `stackedDeck`. -/
def stackedGame : Option Solitaire := blank.resetGame stackedAssets

/-- In `stackedGame`: the ace of hearts is dealt to the waste and dragged onto the two of
spades of tableau pile 1; a press on the two of spades then lifts the two and the ace. -/
def liftTwoAndAce : List Event :=
  [Event.pointerDown overStock 0, Event.pointerDown onWaste 1000,
    Event.pointerUp onSecondPileTop, Event.pointerDown onSecondPileTop 2000]

/-- The session `stackedGame` after `liftTwoAndAce`: the two of spades and the ace of
hearts are lifted from tableau pile 1 at index 1. -/
def groupLifted : Solitaire := (stackedGame.bind fun s => s.run liftTwoAndAce).getD blank

/-- The session `groupLifted` after the double click of the same press, which sends the
ace of hearts from the top of tableau pile 1 to foundation 0 while the two and the ace
are still the lifted group. -/
def groupStale : Solitaire := (groupLifted.handleDoubleClick onSecondPileTop 2000).getD blank


/-! ## Theorems -/

theorem getLast?_eq_none_iff_nil {α : Type} (l : List α) : l.getLast? = none ↔ l = [] := by
  cases l <;> simp [List.getLast?]

/-- C1: `canMoveToTableau card pile` is true exactly when the pile is empty and the
card is a king (rank 13), or the pile is non-empty, the card's colour differs from the
colour of the pile's top card and its rank is the top card's rank minus one. -/
theorem canMoveToTableau_iff (card : Card) (pile : List Card) :
    canMoveToTableau card pile = true ↔
      (pile = [] ∧ card.getValue = 13) ∨
      (∃ topCard, pile.getLast? = some topCard ∧ card.isRed ≠ topCard.isRed ∧
        card.getValue = topCard.getValue - 1) := by
  unfold canMoveToTableau
  cases h : pile.getLast? with
  | none =>
    have hp : pile = [] := (getLast?_eq_none_iff_nil pile).1 h
    simp [hp]
  | some t =>
    have hp : pile ≠ [] := by
      intro hnil
      simp [hnil] at h
    simp [hp]

/-- C2: `canMoveToFoundation card pile` is true exactly when the pile is empty and the
card is an ace (rank 1), or the pile is non-empty, the card's suit equals the suit of
the pile's top card and its rank is the top card's rank plus one. -/
theorem canMoveToFoundation_iff (card : Card) (pile : List Card) :
    canMoveToFoundation card pile = true ↔
      (pile = [] ∧ card.getValue = 1) ∨
      (∃ topCard, pile.getLast? = some topCard ∧ card.getSuit = topCard.getSuit ∧
        card.getValue = topCard.getValue + 1) := by
  unfold canMoveToFoundation
  cases h : pile.getLast? with
  | none =>
    have hp : pile = [] := (getLast?_eq_none_iff_nil pile).1 h
    simp [hp]
  | some t =>
    have hp : pile ≠ [] := by
      intro hnil
      simp [hnil] at h
    simp [hp]

/-! ### Move execution -/

/-- The copy loop, when it stays inside the source, appends the `count` cards from index
`i` on to the target. -/
theorem copyCards_eq (src : List Card) : ∀ (count i : Nat) (tgt : List Card),
    i + count ≤ src.length →
    copyCards src count i tgt = some (tgt ++ (src.drop i).take count) := by
  intro count
  induction count with
  | zero => intro i tgt _; simp [copyCards]
  | succ n ih =>
    intro i tgt h
    have hi : i < src.length := by omega
    rw [copyCards, List.getElem?_eq_getElem hi]
    simp only
    rw [ih (i + 1) _ (by omega), List.drop_eq_getElem_cons hi, List.take_succ_cons]
    simp

/-- The copy loop reads outside the source as soon as `i + count` exceeds its length. -/
theorem copyCards_none (src : List Card) : ∀ (count i : Nat) (tgt : List Card),
    src.length < i + count + 1 →
    copyCards src (count + 1) i tgt = none := by
  intro count
  induction count with
  | zero =>
    intro i tgt h
    have hnone : src[i]? = none := List.getElem?_eq_none (by omega)
    rw [copyCards, hnone]
  | succ n ih =>
    intro i tgt h
    rw [copyCards]
    by_cases hi : i < src.length
    · rw [List.getElem?_eq_getElem hi]
      simp only
      exact ih (i + 1) _ (by omega)
    · have hnone : src[i]? = none := List.getElem?_eq_none (Nat.le_of_not_lt hi)
      rw [hnone]

theorem flipBack_nil : flipBack [] = [] := rfl

theorem flipBack_concat (l : List Card) (c : Card) :
    flipBack (l ++ [c]) = l ++ [if c.isFaceUp then c else c.flip] := by
  unfold flipBack
  simp
  cases h : c.isFaceUp <;> simp

/-- The closed form of a default-`endIndex` move with a start index inside the source. -/
theorem moveCards_default (src tgt : List Card) (startIndex : Int)
    (h0 : 0 ≤ startIndex) (h1 : startIndex < (src.length : Int)) :
    moveCards src tgt startIndex (-1) =
      some ⟨true, flipBack (src.take startIndex.toNat), tgt ++ src.drop startIndex.toNat⟩ := by
  obtain ⟨n, rfl⟩ := Int.eq_ofNat_of_zero_le h0
  have hn : n < src.length := by exact_mod_cast h1
  unfold moveCards
  rw [if_neg (by omega)]
  simp only [if_true]
  have e1 : ((src.length : Int) - 1 + 1 - (n : Int)).toNat = src.length - n := by omega
  rw [e1, Int.toNat_ofNat, copyCards_eq src _ _ _ (by omega)]
  simp only [eraseRange]
  rw [if_pos (by omega)]
  have e2 : ((src.length : Int) - 1 + 1).toNat = src.length := by omega
  simp [e2]

theorem map_ident_flipBack (l : List Card) :
    (flipBack l).map Card.ident = l.map Card.ident := by
  rcases List.eq_nil_or_concat l with rfl | ⟨l', c, rfl⟩
  · rfl
  · rw [List.concat_eq_append, flipBack_concat]
    cases h : c.isFaceUp <;> simp [Card.ident, Card.flip]

theorem length_flipBack (l : List Card) : (flipBack l).length = l.length := by
  have h := congrArg List.length (map_ident_flipBack l)
  simpa using h

/-- C4: for distinct piles and `0 <= startIndex < length(source)`, `moveCards` with the
default `endIndex` returns true, leaves the target equal to its old contents followed by
`source[startIndex..last]` in order, and leaves the source with exactly its first
`startIndex` cards: same identities in the same order (and exactly the same cards once
the reveal rule `flipBack` is applied to that prefix). -/
theorem moveCards_appends_suffix (source target : List Card) (startIndex : Int)
    (h0 : 0 ≤ startIndex) (h1 : startIndex < (source.length : Int)) :
    ∃ out, moveCards source target startIndex (-1) = some out ∧
      out.moved = true ∧
      out.targetPile = target ++ source.drop startIndex.toNat ∧
      out.sourcePile.map Card.ident = (source.take startIndex.toNat).map Card.ident ∧
      out.sourcePile.length = startIndex.toNat ∧
      out.sourcePile = flipBack (source.take startIndex.toNat) := by
  refine ⟨_, moveCards_default source target startIndex h0 h1, rfl, rfl, ?_, ?_, rfl⟩
  · exact map_ident_flipBack _
  · rw [length_flipBack, List.length_take]
    omega

theorem moveCards_appends_suffix_witness :
    ∃ out, moveCards exampleSource exampleTarget 1 (-1) = some out ∧
      out.moved = true ∧
      out.targetPile = exampleTarget ++ exampleSource.drop (1 : Int).toNat ∧
      out.sourcePile.map Card.ident = (exampleSource.take (1 : Int).toNat).map Card.ident ∧
      out.sourcePile.length = (1 : Int).toNat ∧
      out.sourcePile = flipBack (exampleSource.take (1 : Int).toNat) :=
  moveCards_appends_suffix exampleSource exampleTarget 1 (by decide) (by decide)

theorem moveCards_eq_some_false (source target : List Card) (startIndex endIndex : Int)
    (out : MoveOutcome) (hout : moveCards source target startIndex endIndex = some out)
    (hmoved : out.moved = false) :
    (startIndex < 0 ∨ startIndex ≥ (source.length : Int)) ∧
      out.sourcePile = source ∧ out.targetPile = target := by
  unfold moveCards at hout
  by_cases hg : startIndex < 0 ∨ startIndex ≥ (source.length : Int)
  · rw [if_pos hg] at hout
    cases hout
    exact ⟨hg, rfl, rfl⟩
  · rw [if_neg hg] at hout
    simp only at hout
    split at hout
    · cases hout
    · split at hout
      · cases hout
      · cases hout
        cases hmoved

theorem moveCardsSelf_eq_some_false (source : List Card) (startIndex endIndex : Int)
    (pile : List Card) (hout : moveCardsSelf source startIndex endIndex = some (false, pile)) :
    (startIndex < 0 ∨ startIndex ≥ (source.length : Int)) ∧ pile = source := by
  unfold moveCardsSelf at hout
  by_cases hg : startIndex < 0 ∨ startIndex ≥ (source.length : Int)
  · rw [if_pos hg] at hout
    cases hout
    exact ⟨hg, rfl⟩
  · rw [if_neg hg] at hout
    simp only at hout
    split at hout
    · cases hout
    · split at hout
      · cases hout
      · cases hout

/-- C5: `moveCards` returns false exactly when `startIndex < 0` or
`startIndex >= length(source)`; whenever it returns false both piles are left as they
were; and on an empty source it fails for every `startIndex`.  The same holds when both
references name one vector (`moveCardsSelf`). -/
theorem moveCards_false_iff (source target : List Card) (startIndex endIndex : Int) :
    ((∃ out, moveCards source target startIndex endIndex = some out ∧ out.moved = false) ↔
      (startIndex < 0 ∨ startIndex ≥ (source.length : Int))) ∧
    (∀ out, moveCards source target startIndex endIndex = some out → out.moved = false →
      out.sourcePile = source ∧ out.targetPile = target) ∧
    moveCards [] target startIndex endIndex = some ⟨false, [], target⟩ ∧
    ((∃ pile, moveCardsSelf source startIndex endIndex = some (false, pile)) ↔
      (startIndex < 0 ∨ startIndex ≥ (source.length : Int))) ∧
    (∀ pile, moveCardsSelf source startIndex endIndex = some (false, pile) → pile = source) := by
  refine ⟨⟨?_, ?_⟩, ?_, ?_, ⟨?_, ?_⟩, ?_⟩
  · rintro ⟨out, hout, hmoved⟩
    exact (moveCards_eq_some_false source target startIndex endIndex out hout hmoved).1
  · intro hg
    exact ⟨⟨false, source, target⟩, by unfold moveCards; rw [if_pos hg], rfl⟩
  · intro out hout hmoved
    exact (moveCards_eq_some_false source target startIndex endIndex out hout hmoved).2
  · unfold moveCards
    rw [if_pos]
    simp only [List.length_nil, Int.ofNat_zero]
    omega
  · rintro ⟨pile, hout⟩
    exact (moveCardsSelf_eq_some_false source startIndex endIndex pile hout).1
  · intro hg
    exact ⟨source, by unfold moveCardsSelf; rw [if_pos hg]⟩
  · intro pile hout
    exact (moveCardsSelf_eq_some_false source startIndex endIndex pile hout).2

/-- C7: after a successful `moveCards` with the default `endIndex`, the target is its old
cards followed by the moved cards, all unchanged (face state included); the cards below
the new top of the source are unchanged; the new top of the source, when there is one,
is the old card flipped exactly when it was face-down, hence face-up; and when the source
becomes empty the result is the empty pile, reached without any out-of-range access. -/
theorem moveCards_reveals_top (source target : List Card) (startIndex : Int)
    (h0 : 0 ≤ startIndex) (h1 : startIndex < (source.length : Int)) :
    ∃ out, moveCards source target startIndex (-1) = some out ∧
      out.moved = true ∧
      out.targetPile = target ++ source.drop startIndex.toNat ∧
      out.sourcePile.dropLast = (source.take startIndex.toNat).dropLast ∧
      (∀ top, (source.take startIndex.toNat).getLast? = some top →
        out.sourcePile.getLast? = some (if top.isFaceUp then top else top.flip) ∧
        (if top.isFaceUp then top else top.flip).isFaceUp = true) ∧
      (source.take startIndex.toNat = [] → out.sourcePile = []) := by
  refine ⟨_, moveCards_default source target startIndex h0 h1, rfl, rfl, ?_, ?_, ?_⟩
  · show (flipBack (source.take startIndex.toNat)).dropLast = _
    rcases List.eq_nil_or_concat (source.take startIndex.toNat) with h | ⟨l, c, h⟩
    · rw [h]; rfl
    · rw [h, List.concat_eq_append, flipBack_concat]
      simp
  · intro top htop
    show (flipBack (source.take startIndex.toNat)).getLast? = _ ∧ _
    rcases List.eq_nil_or_concat (source.take startIndex.toNat) with h | ⟨l, c, h⟩
    · rw [h] at htop; simp at htop
    · rw [h, List.concat_eq_append] at htop
      rw [h, List.concat_eq_append, flipBack_concat]
      simp at htop
      subst htop
      constructor
      · simp
      · cases hc : c.isFaceUp <;> simp_all [Card.flip, Card.isFaceUp]
  · intro h
    show flipBack (source.take startIndex.toNat) = []
    rw [h]; rfl

theorem moveCards_reveals_top_witness :
    ∃ out, moveCards exampleSource exampleTarget 1 (-1) = some out ∧
      out.moved = true ∧
      out.targetPile = exampleTarget ++ exampleSource.drop (1 : Int).toNat ∧
      out.sourcePile.dropLast = (exampleSource.take (1 : Int).toNat).dropLast ∧
      (∀ top, (exampleSource.take (1 : Int).toNat).getLast? = some top →
        out.sourcePile.getLast? = some (if top.isFaceUp then top else top.flip) ∧
        (if top.isFaceUp then top else top.flip).isFaceUp = true) ∧
      (exampleSource.take (1 : Int).toNat = [] → out.sourcePile = []) :=
  moveCards_reveals_top exampleSource exampleTarget 1 (by decide) (by decide)

/-! ### Conservation of cards by `moveCards` -/

/-- Every call that returns true erased a range `[a, b)` of the source and appended it. -/
theorem moveCards_eq_some_true (src tgt : List Card) (startIndex endIndex : Int) (out : MoveOutcome)
    (h : moveCards src tgt startIndex endIndex = some out) (hmoved : out.moved = true) :
    ∃ a b : Nat, a ≤ b ∧ b ≤ src.length ∧
      out.sourcePile = flipBack (src.take a ++ src.drop b) ∧
      out.targetPile = tgt ++ (src.drop a).take (b - a) := by
  unfold moveCards at h
  by_cases hg : startIndex < 0 ∨ startIndex ≥ (src.length : Int)
  · rw [if_pos hg] at h
    cases h
    cases hmoved
  · rw [if_neg hg] at h
    simp only at h
    generalize hend : (if endIndex = -1 then (src.length : Int) - 1 else endIndex) = e at h
    by_cases hr : 0 ≤ startIndex ∧ startIndex ≤ e + 1 ∧ e + 1 ≤ (src.length : Int)
    · have hcopy := copyCards_eq src (e + 1 - startIndex).toNat startIndex.toNat tgt (by omega)
      rw [hcopy] at h
      simp only [eraseRange, if_pos hr] at h
      cases h
      refine ⟨startIndex.toNat, (e + 1).toNat, by omega, by omega, rfl, ?_⟩
      have hsub : (e + 1 - startIndex).toNat = (e + 1).toNat - startIndex.toNat := by omega
      simp only [hsub]
    · split at h
      · cases h
      · simp only [eraseRange, if_neg hr] at h
        cases h

/-- Every defined call of `moveCards` keeps the multiset of card identities over both
piles, and so the total number of cards. -/
theorem moveCards_conserves (src tgt : List Card) (startIndex endIndex : Int) (out : MoveOutcome)
    (h : moveCards src tgt startIndex endIndex = some out) :
    ((out.sourcePile ++ out.targetPile).map Card.ident).Perm ((src ++ tgt).map Card.ident) ∧
      out.sourcePile.length + out.targetPile.length = src.length + tgt.length := by
  have hperm : ((out.sourcePile ++ out.targetPile).map Card.ident).Perm
      ((src ++ tgt).map Card.ident) := by
    cases hm : out.moved with
    | false =>
      obtain ⟨-, h1, h2⟩ := moveCards_eq_some_false src tgt startIndex endIndex out h hm
      rw [h1, h2]
    | true =>
      obtain ⟨a, b, hab, hb, hs, ht⟩ := moveCards_eq_some_true src tgt startIndex endIndex out h hm
      rw [List.map_append, hs, map_ident_flipBack, ht]
      have hsrc : src = src.take a ++ ((src.drop a).take (b - a) ++ src.drop b) := by
        have h1 : src.drop a = (src.drop a).take (b - a) ++ (src.drop a).drop (b - a) :=
          (List.take_append_drop _ _).symm
        have h2 : (src.drop a).drop (b - a) = src.drop b := by
          rw [List.drop_drop]
          congr 1
          omega
        rw [h2] at h1
        rw [← h1, List.take_append_drop]
      have hmap : src.map Card.ident =
          (src.take a).map Card.ident ++
            (((src.drop a).take (b - a)).map Card.ident ++ (src.drop b).map Card.ident) := by
        conv_lhs => rw [hsrc]
        simp only [List.map_append]
      simp only [List.map_append]
      rw [hmap]
      simp only [List.append_assoc]
      refine List.Perm.append_left _ ?_
      rw [← List.append_assoc]
      exact List.perm_append_comm
  refine ⟨hperm, ?_⟩
  have hl := hperm.length_eq
  simpa using hl

/-- The calls of `moveCards` that are undefined are exactly those that pass the
`startIndex` guard with an explicit `endIndex` not below the length or below
`startIndex - 1`. -/
theorem moveCards_eq_none_iff (src tgt : List Card) (startIndex endIndex : Int) :
    moveCards src tgt startIndex endIndex = none ↔
      (0 ≤ startIndex ∧ startIndex < (src.length : Int) ∧ endIndex ≠ -1 ∧
        (endIndex ≥ (src.length : Int) ∨ endIndex + 1 < startIndex)) := by
  unfold moveCards
  by_cases hg : startIndex < 0 ∨ startIndex ≥ (src.length : Int)
  · rw [if_pos hg]
    constructor
    · intro h; cases h
    · rintro ⟨h0, h1, -⟩; omega
  · rw [if_neg hg]
    simp only
    by_cases hd : endIndex = -1
    · rw [if_pos hd]
      rw [copyCards_eq src _ _ _ (by omega)]
      simp only [eraseRange]
      rw [if_pos (by omega)]
      constructor
      · intro h; cases h
      · rintro ⟨-, -, hne, -⟩; exact absurd hd hne
    · rw [if_neg hd]
      by_cases hbig : endIndex ≥ (src.length : Int)
      · obtain ⟨k, hk⟩ : ∃ k : Nat, (endIndex + 1 - startIndex).toNat = k + 1 :=
          ⟨(endIndex + 1 - startIndex).toNat - 1, by omega⟩
        rw [hk, copyCards_none src k _ _ (by omega)]
        constructor
        · intro _; exact ⟨by omega, by omega, hd, Or.inl hbig⟩
        · intro _; rfl
      · by_cases hsmall : endIndex + 1 < startIndex
        · have hz : (endIndex + 1 - startIndex).toNat = 0 := by omega
          rw [hz]
          simp only [copyCards, eraseRange]
          rw [if_neg (by omega)]
          constructor
          · intro _; exact ⟨by omega, by omega, hd, Or.inr hsmall⟩
          · intro _; rfl
        · rw [copyCards_eq src _ _ _ (by omega)]
          simp only [eraseRange]
          rw [if_pos (by omega)]
          constructor
          · intro h; cases h
          · rintro ⟨-, -, -, h | h⟩
            · exact absurd h hbig
            · exact absurd h hsmall

/-- C6 at malformed explicit end indices: an `endIndex` not below the length of the
source, or below `startIndex - 1`, passes the `startIndex` guard and then reads outside
the source vector or erases an invalid range; the call is not a no-op returning false. -/
theorem moveCards_malformed_endIndex :
    moveCards [⟨Suit.hearts, 1, true⟩] [] 0 1 = none ∧
    moveCards [⟨Suit.hearts, 1, true⟩, ⟨Suit.spades, 2, true⟩] [] 1 (-2) = none := by
  constructor <;> decide

/-! ### Stock and waste -/

theorem flip_flip (c : Card) : c.flip.flip = c := by
  cases c; simp [Card.flip]

theorem clickStock_deal (s : Solitaire) (now : Int) (st : List Card) (c : Card)
    (h : s.stock = st ++ [c]) :
    s.clickStock now =
      { s with stock := st, waste := s.waste ++ [c.flip], lastDealTime := now } := by
  unfold Solitaire.clickStock
  simp [h]

/-- With fuel for every card of the waste, the refill loop empties the waste onto the
stock, last card first, flipping each card. -/
theorem restoreStock_eq : ∀ (fuel : Nat) (waste stock : List Card), waste.length ≤ fuel →
    restoreStock fuel waste stock = ([], stock ++ waste.reverse.map Card.flip) := by
  intro fuel
  induction fuel with
  | zero =>
    intro waste stock h
    have : waste = [] := List.length_eq_zero.mp (by omega)
    subst this
    simp [restoreStock]
  | succ n ih =>
    intro waste stock h
    rcases List.eq_nil_or_concat waste with rfl | ⟨w, c, rfl⟩
    · simp [restoreStock]
    · rw [List.concat_eq_append] at h ⊢
      have hw : w.length ≤ n := by simpa using h
      simp [restoreStock, ih w _ hw]

theorem clickStock_restore (s : Solitaire) (now : Int) (h : s.stock = []) (hw : s.waste ≠ []) :
    s.clickStock now = { s with stock := s.waste.reverse.map Card.flip, waste := [] } := by
  unfold Solitaire.clickStock
  have hw2 : s.waste.isEmpty = false := by
    cases hws : s.waste with
    | nil => exact absurd hws hw
    | cons a l => rfl
  simp [h, hw2, restoreStock_eq]

theorem run_append (s : Solitaire) (a b : List Event) :
    s.run (a ++ b) = (s.run a).bind (fun s1 => s1.run b) := by
  induction a generalizing s with
  | nil => rfl
  | cons e rest ih =>
    simp only [List.cons_append, Solitaire.run]
    cases h : s.handle e with
    | none => rfl
    | some s1 => exact ih s1

theorem handle_stockClick (s : Solitaire) (e : Event) (h : e.isStockClick = true) :
    ∃ now, s.handle e = some (s.clickStock now) := by
  cases e with
  | pointerDown pos now =>
    refine ⟨now, ?_⟩
    simp only [Event.isStockClick] at h
    simp [Solitaire.handle, Solitaire.handleMouseDown, h]
  | pointerUp pos => simp [Event.isStockClick] at h
  | doubleClick pos now => simp [Event.isStockClick] at h

/-- Up to `n` stock clicks on a stock of `n` cards deal its top cards onto the waste one
by one and touch nothing else but the deal time. -/
theorem run_stockClicks : ∀ (events : List Event) (s : Solitaire),
    (∀ e ∈ events, e.isStockClick = true) → events.length ≤ s.stock.length →
    ∃ s1, s.run events = some s1 ∧
      s1.stock = s.stock.take (s.stock.length - events.length) ∧
      s1.waste = s.waste ++ ((s.stock.drop (s.stock.length - events.length)).reverse.map Card.flip) ∧
      s1.tableau = s.tableau ∧ s1.foundations = s.foundations ∧
      s1.draggedCards = s.draggedCards ∧ s1.draggedSourcePile = s.draggedSourcePile := by
  intro events
  induction events with
  | nil =>
    intro s _ _
    exact ⟨s, rfl, by simp, by simp, rfl, rfl, rfl, rfl⟩
  | cons e rest ih =>
    intro s hall hlen
    obtain ⟨now, hnow⟩ := handle_stockClick s e (hall e (List.mem_cons_self _ _))
    simp only [List.length_cons] at hlen
    rcases List.eq_nil_or_concat s.stock with hnil | ⟨st, c, hst⟩
    · rw [hnil] at hlen; simp at hlen
    · rw [List.concat_eq_append] at hst
      have hclick := clickStock_deal s now st c hst
      have hlen1 : rest.length ≤ (s.clickStock now).stock.length := by
        rw [hclick]; simp [hst] at hlen ⊢; omega
      obtain ⟨s1, hrun, hs, hw, ht, hf, hd, hp⟩ :=
        ih (s.clickStock now) (fun e he => hall e (List.mem_cons_of_mem _ he)) hlen1
      refine ⟨s1, ?_, ?_, ?_, ?_, ?_, ?_, ?_⟩
      · simp only [Solitaire.run, hnow]; exact hrun
      · rw [hs, hclick, hst]
        have hk : (st ++ [c]).length - (rest.length + 1) = st.length - rest.length := by simp
        simp only [List.length_cons]
        rw [hk, List.take_append_of_le_length (by omega)]
      · rw [hw, hclick, hst]
        have hk : (st ++ [c]).length - (rest.length + 1) = st.length - rest.length := by simp
        simp only [List.length_cons]
        rw [hk, List.drop_append_of_le_length (by omega)]
        simp
      · rw [ht, hclick]
      · rw [hf, hclick]
      · rw [hd, hclick]
      · rw [hp, hclick]

/-- C8: from a stock of `n >= 1` face-down cards and an empty waste, `k <= n` successive
stock clicks leave the waste equal to the reverse of the top `k` stock cards, each
flipped and so face-up, and the stock equal to its bottom `n - k` cards; after `n`
clicks the stock is empty; and `n + 1` clicks restore the stock exactly (original order,
every card face-down) and leave the waste empty. -/
theorem stock_waste_cycle (s : Solitaire) (events : List Event)
    (hclicks : ∀ e ∈ events, e.isStockClick = true)
    (hwaste : s.waste = []) (hdown : ∀ c ∈ s.stock, c.faceUp = false)
    (hn : 1 ≤ s.stock.length) :
    (events.length ≤ s.stock.length →
      ∃ s1, s.run events = some s1 ∧
        s1.waste = ((s.stock.drop (s.stock.length - events.length)).reverse).map Card.flip ∧
        (∀ c ∈ s1.waste, c.faceUp = true) ∧
        s1.stock = s.stock.take (s.stock.length - events.length)) ∧
    (events.length = s.stock.length →
      ∃ s1, s.run events = some s1 ∧ s1.stock = [] ∧
        s1.waste = s.stock.reverse.map Card.flip) ∧
    (events.length = s.stock.length + 1 →
      ∃ s1, s.run events = some s1 ∧ s1.stock = s.stock ∧
        (∀ c ∈ s1.stock, c.faceUp = false) ∧ s1.waste = []) := by
  refine ⟨?_, ?_, ?_⟩
  · intro hlen
    obtain ⟨s1, hrun, hs, hw, -⟩ := run_stockClicks events s hclicks hlen
    rw [hwaste, List.nil_append] at hw
    refine ⟨s1, hrun, hw, ?_, hs⟩
    intro c hc
    rw [hw] at hc
    obtain ⟨d, hd, rfl⟩ := List.mem_map.1 hc
    have hd2 : d ∈ s.stock := List.mem_of_mem_drop (List.mem_reverse.1 hd)
    simp [Card.flip, hdown d hd2]
  · intro hlen
    obtain ⟨s1, hrun, hs, hw, -⟩ := run_stockClicks events s hclicks (le_of_eq hlen)
    rw [hwaste, List.nil_append] at hw
    refine ⟨s1, hrun, ?_, ?_⟩
    · rw [hs, hlen]; simp
    · rw [hw, hlen]; simp
  · intro hlen
    rcases List.eq_nil_or_concat events with hnil | ⟨init, last, hev⟩
    · rw [hnil] at hlen; simp at hlen
    · rw [List.concat_eq_append] at hev
      subst hev
      have hlen2 : init.length = s.stock.length := by simpa using hlen
      obtain ⟨s1, hrun, hs, hw, -⟩ := run_stockClicks init s
        (fun e he => hclicks e (List.mem_append_left _ he)) (le_of_eq hlen2)
      rw [hwaste, List.nil_append, hlen2] at hw
      rw [hlen2] at hs
      simp only [Nat.sub_self, List.take_zero] at hs
      simp only [Nat.sub_self, List.drop_zero] at hw
      obtain ⟨now, hnow⟩ := handle_stockClick s1 last
        (hclicks last (List.mem_append_right _ (List.mem_singleton_self _)))
      have hne : s1.waste ≠ [] := by
        rw [hw]
        intro h
        have h2 : s.stock = [] := by simpa using h
        rw [h2] at hn
        simp at hn
      have hrestore := clickStock_restore s1 now hs hne
      have hback : s1.waste.reverse.map Card.flip = s.stock := by
        rw [hw]
        simp [List.map_reverse, Function.comp_def, flip_flip]
      refine ⟨s1.clickStock now, ?_, ?_, ?_, ?_⟩
      · rw [run_append, hrun]
        simp [Solitaire.run, hnow]
      · rw [hrestore]; exact hback
      · rw [hrestore]
        show ∀ c ∈ s1.waste.reverse.map Card.flip, c.faceUp = false
        rw [hback]; exact hdown
      · rw [hrestore]

theorem stock_waste_cycle_witness :
    (∃ s1, threeCardStock.run (stockClicks 4) = some s1 ∧ s1.stock = threeCardStock.stock ∧
      (∀ c ∈ s1.stock, c.faceUp = false) ∧ s1.waste = []) ∧
    (threeCardStock.run (stockClicks 1)).map Solitaire.waste =
      some [⟨Suit.spades, 3, true⟩] ∧
    (threeCardStock.run (stockClicks 2)).map Solitaire.waste =
      some [⟨Suit.spades, 3, true⟩, ⟨Suit.clubs, 2, true⟩] ∧
    (threeCardStock.run (stockClicks 3)).map Solitaire.waste =
      some [⟨Suit.spades, 3, true⟩, ⟨Suit.clubs, 2, true⟩, ⟨Suit.hearts, 1, true⟩] ∧
    (threeCardStock.run (stockClicks 3)).map Solitaire.stock = some [] :=
  ⟨(stock_waste_cycle threeCardStock (stockClicks 4) (by decide) (by decide) (by decide)
      (by decide)).2.2 (by decide),
    by decide, by decide, by decide, by decide⟩

/-! ### Dealing -/

/-- The deal written out: with the stock read from its back as `c0, c1, ..., c27, rest`,
`dealCards` builds the seven piles below and leaves `rest` in the stock. -/
theorem dealCards_explicit (s : Solitaire) (c0 c1 c2 c3 c4 c5 c6 c7 c8 c9 c10 c11 c12 c13 c14 c15 c16 c17 c18 c19 c20 c21 c22 c23 c24 c25 c26 c27 : Card) (rest : List Card)
    (hs : s.stock = (c0 :: c1 :: c2 :: c3 :: c4 :: c5 :: c6 :: c7 :: c8 :: c9 :: c10 :: c11 :: c12 :: c13 :: c14 :: c15 :: c16 :: c17 :: c18 :: c19 :: c20 :: c21 :: c22 :: c23 :: c24 :: c25 :: c26 :: c27 :: rest).reverse)
    (ht : s.tableau = List.replicate 7 []) :
    s.dealCards = some
      { s with
        stock := rest.reverse
        tableau :=
         [[c0.flip],
          [c1, c7.flip],
          [c2, c8, c13.flip],
          [c3, c9, c14, c18.flip],
          [c4, c10, c15, c19, c22.flip],
          [c5, c11, c16, c20, c23, c25.flip],
          [c6, c12, c17, c21, c24, c26, c27.flip]] } := by
  cases s
  simp only at hs ht
  subst hs ht
  simp [Solitaire.dealCards, Solitaire.dealRows, Solitaire.dealRow, List.replicate]

theorem exists_cons_of_length_succ {α : Type} (l : List α) (n : Nat) (h : l.length = n + 1) :
    ∃ a r, l = a :: r ∧ r.length = n := by
  cases l with
  | nil => simp at h
  | cons a r => exact ⟨a, r, rfl, by simpa using h⟩

theorem exists_deal_prefix (l : List Card) (h : l.length = 52) :
    ∃ c0 c1 c2 c3 c4 c5 c6 c7 c8 c9 c10 c11 c12 c13 c14 c15 c16 c17 c18 c19 c20 c21 c22 c23 c24 c25 c26 c27 rest,
      l = c0 :: c1 :: c2 :: c3 :: c4 :: c5 :: c6 :: c7 :: c8 :: c9 :: c10 :: c11 :: c12 :: c13 :: c14 :: c15 :: c16 :: c17 :: c18 :: c19 :: c20 :: c21 :: c22 :: c23 :: c24 :: c25 :: c26 :: c27 :: rest ∧ rest.length = 24 := by
  obtain ⟨c0, r0, rfl, h0⟩ := exists_cons_of_length_succ l 51 h
  obtain ⟨c1, r1, rfl, h1⟩ := exists_cons_of_length_succ r0 50 h0
  obtain ⟨c2, r2, rfl, h2⟩ := exists_cons_of_length_succ r1 49 h1
  obtain ⟨c3, r3, rfl, h3⟩ := exists_cons_of_length_succ r2 48 h2
  obtain ⟨c4, r4, rfl, h4⟩ := exists_cons_of_length_succ r3 47 h3
  obtain ⟨c5, r5, rfl, h5⟩ := exists_cons_of_length_succ r4 46 h4
  obtain ⟨c6, r6, rfl, h6⟩ := exists_cons_of_length_succ r5 45 h5
  obtain ⟨c7, r7, rfl, h7⟩ := exists_cons_of_length_succ r6 44 h6
  obtain ⟨c8, r8, rfl, h8⟩ := exists_cons_of_length_succ r7 43 h7
  obtain ⟨c9, r9, rfl, h9⟩ := exists_cons_of_length_succ r8 42 h8
  obtain ⟨c10, r10, rfl, h10⟩ := exists_cons_of_length_succ r9 41 h9
  obtain ⟨c11, r11, rfl, h11⟩ := exists_cons_of_length_succ r10 40 h10
  obtain ⟨c12, r12, rfl, h12⟩ := exists_cons_of_length_succ r11 39 h11
  obtain ⟨c13, r13, rfl, h13⟩ := exists_cons_of_length_succ r12 38 h12
  obtain ⟨c14, r14, rfl, h14⟩ := exists_cons_of_length_succ r13 37 h13
  obtain ⟨c15, r15, rfl, h15⟩ := exists_cons_of_length_succ r14 36 h14
  obtain ⟨c16, r16, rfl, h16⟩ := exists_cons_of_length_succ r15 35 h15
  obtain ⟨c17, r17, rfl, h17⟩ := exists_cons_of_length_succ r16 34 h16
  obtain ⟨c18, r18, rfl, h18⟩ := exists_cons_of_length_succ r17 33 h17
  obtain ⟨c19, r19, rfl, h19⟩ := exists_cons_of_length_succ r18 32 h18
  obtain ⟨c20, r20, rfl, h20⟩ := exists_cons_of_length_succ r19 31 h19
  obtain ⟨c21, r21, rfl, h21⟩ := exists_cons_of_length_succ r20 30 h20
  obtain ⟨c22, r22, rfl, h22⟩ := exists_cons_of_length_succ r21 29 h21
  obtain ⟨c23, r23, rfl, h23⟩ := exists_cons_of_length_succ r22 28 h22
  obtain ⟨c24, r24, rfl, h24⟩ := exists_cons_of_length_succ r23 27 h23
  obtain ⟨c25, r25, rfl, h25⟩ := exists_cons_of_length_succ r24 26 h24
  obtain ⟨c26, r26, rfl, h26⟩ := exists_cons_of_length_succ r25 25 h25
  obtain ⟨c27, r27, rfl, h27⟩ := exists_cons_of_length_succ r26 24 h26
  exact ⟨c0, c1, c2, c3, c4, c5, c6, c7, c8, c9, c10, c11, c12, c13, c14, c15, c16, c17, c18, c19, c20, c21, c22, c23, c24, c25, c26, c27, r27, rfl, h27⟩

/-- The layout reached by `dealCards` from any 52 face-down cards and 7 empty piles. -/
theorem dealCards_layout (s : Solitaire) (hlen : s.stock.length = 52)
    (hdown : ∀ c ∈ s.stock, c.faceUp = false) (htab : s.tableau = List.replicate 7 []) :
    ∃ s1, s.dealCards = some s1 ∧ dealtLayout s1 ∧ s1.stock = s.stock.take 24 ∧
      s1.waste = s.waste ∧ s1.foundations = s.foundations ∧
      s1.draggedCards = s.draggedCards ∧ s1.draggedSourcePile = s.draggedSourcePile ∧
      s1.gameWon = s.gameWon := by
  have hrev : s.stock.reverse.length = 52 := by simpa using hlen
  obtain ⟨c0, c1, c2, c3, c4, c5, c6, c7, c8, c9, c10, c11, c12, c13, c14, c15, c16, c17, c18, c19, c20, c21, c22, c23, c24, c25, c26, c27, rest, hr, hrest⟩ := exists_deal_prefix _ hrev
  have hs : s.stock = (c0 :: c1 :: c2 :: c3 :: c4 :: c5 :: c6 :: c7 :: c8 :: c9 :: c10 :: c11 :: c12 :: c13 :: c14 :: c15 :: c16 :: c17 :: c18 :: c19 :: c20 :: c21 :: c22 :: c23 :: c24 :: c25 :: c26 :: c27 :: rest).reverse := by
    rw [← hr, List.reverse_reverse]
  have hd : ∀ c ∈ (c0 :: c1 :: c2 :: c3 :: c4 :: c5 :: c6 :: c7 :: c8 :: c9 :: c10 :: c11 :: c12 :: c13 :: c14 :: c15 :: c16 :: c17 :: c18 :: c19 :: c20 :: c21 :: c22 :: c23 :: c24 :: c25 :: c26 :: c27 :: rest), c.faceUp = false := by
    intro c hc
    apply hdown
    rw [hs]
    exact List.mem_reverse.2 hc
  have d0 : c0.faceUp = false := hd c0 (by simp)
  have d1 : c1.faceUp = false := hd c1 (by simp)
  have d2 : c2.faceUp = false := hd c2 (by simp)
  have d3 : c3.faceUp = false := hd c3 (by simp)
  have d4 : c4.faceUp = false := hd c4 (by simp)
  have d5 : c5.faceUp = false := hd c5 (by simp)
  have d6 : c6.faceUp = false := hd c6 (by simp)
  have d7 : c7.faceUp = false := hd c7 (by simp)
  have d8 : c8.faceUp = false := hd c8 (by simp)
  have d9 : c9.faceUp = false := hd c9 (by simp)
  have d10 : c10.faceUp = false := hd c10 (by simp)
  have d11 : c11.faceUp = false := hd c11 (by simp)
  have d12 : c12.faceUp = false := hd c12 (by simp)
  have d13 : c13.faceUp = false := hd c13 (by simp)
  have d14 : c14.faceUp = false := hd c14 (by simp)
  have d15 : c15.faceUp = false := hd c15 (by simp)
  have d16 : c16.faceUp = false := hd c16 (by simp)
  have d17 : c17.faceUp = false := hd c17 (by simp)
  have d18 : c18.faceUp = false := hd c18 (by simp)
  have d19 : c19.faceUp = false := hd c19 (by simp)
  have d20 : c20.faceUp = false := hd c20 (by simp)
  have d21 : c21.faceUp = false := hd c21 (by simp)
  have d22 : c22.faceUp = false := hd c22 (by simp)
  have d23 : c23.faceUp = false := hd c23 (by simp)
  have d24 : c24.faceUp = false := hd c24 (by simp)
  have d25 : c25.faceUp = false := hd c25 (by simp)
  have d26 : c26.faceUp = false := hd c26 (by simp)
  have d27 : c27.faceUp = false := hd c27 (by simp)
  have hrestdown : ∀ c ∈ rest, c.faceUp = false := by
    intro c hc
    exact hd c (by simp [hc])
  have hsplit : (c0 :: c1 :: c2 :: c3 :: c4 :: c5 :: c6 :: c7 :: c8 :: c9 :: c10 :: c11 :: c12 :: c13 :: c14 :: c15 :: c16 :: c17 :: c18 :: c19 :: c20 :: c21 :: c22 :: c23 :: c24 :: c25 :: c26 :: c27 :: rest).reverse = rest.reverse ++ [c27, c26, c25, c24, c23, c22, c21, c20, c19, c18, c17, c16, c15, c14, c13, c12, c11, c10, c9, c8, c7, c6, c5, c4, c3, c2, c1, c0] := by
    simp
  rw [dealCards_explicit s c0 c1 c2 c3 c4 c5 c6 c7 c8 c9 c10 c11 c12 c13 c14 c15 c16 c17 c18 c19 c20 c21 c22 c23 c24 c25 c26 c27 rest hs htab]
  refine ⟨_, rfl, ⟨rfl, ?_, rfl, by simpa using hrest, ?_⟩, ?_, rfl, rfl, rfl, rfl, rfl⟩
  · intro i hi
    interval_cases i
    · exact ⟨_, rfl, rfl, [], c0.flip, rfl, by simp [Card.flip, d0], by simp [d0]⟩
    · exact ⟨_, rfl, rfl, [c1], c7.flip, rfl, by simp [Card.flip, d1, d7], by simp [d1, d7]⟩
    · exact ⟨_, rfl, rfl, [c2, c8], c13.flip, rfl, by simp [Card.flip, d2, d8, d13], by simp [d2, d8, d13]⟩
    · exact ⟨_, rfl, rfl, [c3, c9, c14], c18.flip, rfl, by simp [Card.flip, d3, d9, d14, d18], by simp [d3, d9, d14, d18]⟩
    · exact ⟨_, rfl, rfl, [c4, c10, c15, c19], c22.flip, rfl, by simp [Card.flip, d4, d10, d15, d19, d22], by simp [d4, d10, d15, d19, d22]⟩
    · exact ⟨_, rfl, rfl, [c5, c11, c16, c20, c23], c25.flip, rfl, by simp [Card.flip, d5, d11, d16, d20, d23, d25], by simp [d5, d11, d16, d20, d23, d25]⟩
    · exact ⟨_, rfl, rfl, [c6, c12, c17, c21, c24, c26], c27.flip, rfl, by simp [Card.flip, d6, d12, d17, d21, d24, d26, d27], by simp [d6, d12, d17, d21, d24, d26, d27]⟩
  · intro c hc
    exact hrestdown c (List.mem_reverse.1 hc)
  · show rest.reverse = s.stock.take 24
    rw [hs, hsplit, List.take_left' (by simpa using hrest)]

theorem loadSuits_all_available (env : Assets)
    (havail : ∀ suit value, env.available suit value = true) :
    loadSuits env suits [] = loadSuits plainAssets suits [] := by
  simp [loadSuits, loadValues, suits, values, havail, plainAssets]

theorem loaded_deck_length : (loadSuits plainAssets suits []).length = 52 := by decide

theorem loaded_deck_face_down : ∀ c ∈ loadSuits plainAssets suits [], c.faceUp = false := by
  decide

/-- C3: from a stock of 52 face-down cards and 7 empty tableau piles, `dealCards` leaves
tableau pile `i` with `i + 1` cards, its top face-up and the cards below face-down, 28
tableau cards in all, and the bottom 24 stock cards, face-down, in the stock; and
`resetGame`, when every card image is found and the shuffle permutes the deck, produces
that layout with an empty waste and 4 empty foundations, whatever the previous state. -/
theorem deal_invariant (env : Assets) (s0 s : Solitaire)
    (havail : ∀ suit value, env.available suit value = true)
    (hperm : ∀ deck, (env.shuffle deck).Perm deck)
    (hlen : s.stock.length = 52) (hdown : ∀ c ∈ s.stock, c.faceUp = false)
    (htab : s.tableau = List.replicate 7 []) :
    (∃ s1, s.dealCards = some s1 ∧ dealtLayout s1 ∧ s1.stock = s.stock.take 24 ∧
      s1.waste = s.waste ∧ s1.foundations = s.foundations) ∧
    (∃ s1, s0.resetGame env = some s1 ∧ dealtLayout s1 ∧ s1.waste = [] ∧
      s1.foundations = List.replicate 4 []) := by
  constructor
  · obtain ⟨s1, h1, h2, h3, h4, h5, -⟩ := dealCards_layout s hlen hdown htab
    exact ⟨s1, h1, h2, h3, h4, h5⟩
  · unfold Solitaire.resetGame
    have hp := hperm (loadSuits env suits [])
    have hlen2 : (env.shuffle (loadSuits env suits [])).length = 52 := by
      rw [hp.length_eq, loadSuits_all_available env havail]
      exact loaded_deck_length
    have hdown2 : ∀ c ∈ env.shuffle (loadSuits env suits []), c.faceUp = false := by
      intro c hc
      have hc2 := hp.mem_iff.1 hc
      rw [loadSuits_all_available env havail] at hc2
      exact loaded_deck_face_down c hc2
    obtain ⟨s1, h1, h2, -, h4, h5, -⟩ :=
      dealCards_layout (Solitaire.loadCards env
        { s0 with
          tableau := List.replicate 7 []
          foundations := List.replicate 4 []
          stock := []
          waste := []
          draggedCards := []
          draggedSourcePile := none
          gameWon := false }) hlen2 hdown2 rfl
    exact ⟨s1, h1, h2, h4, h5⟩

theorem deal_invariant_witness :
    (∃ s1, loadedDeck.dealCards = some s1 ∧ dealtLayout s1 ∧
      s1.stock = loadedDeck.stock.take 24 ∧
      s1.waste = loadedDeck.waste ∧ s1.foundations = loadedDeck.foundations) ∧
    (∃ s1, threeCardStock.resetGame plainAssets = some s1 ∧ dealtLayout s1 ∧ s1.waste = [] ∧
      s1.foundations = List.replicate 4 []) :=
  deal_invariant plainAssets threeCardStock loadedDeck (fun _ _ => rfl)
    (fun deck => List.Perm.refl deck) (by decide) (by decide) (by decide)


/-! ### Dropping on a pile that is not a tableau pile -/

/-- C9 at a failing input: in the new game whose tableau pile 0 is the face-up king of
spades, a pointer-down on that card lifts it, and the pointer-up on the empty foundation 0
moves it there, although the target is no tableau pile and `canMoveToFoundation` rejects
the king: `canMoveToTableau` alone, evaluated on the foundation, let the move through. -/
theorem king_dropped_on_empty_foundation :
    (plainGame.map fun s => s.tableau[0]?) = some (some [kingOfSpades]) ∧
    (plainGame.map fun s => s.foundations) = some [[], [], [], []] ∧
    ((plainGame.bind fun s => s.handleMouseDown onFirstTableauCard 0).map fun s =>
      (s.draggedCards, s.draggedSourcePile, s.draggedStartIndex)) =
        some ([kingOfSpades], some (PileRef.tableau 0), 0) ∧
    (plainGame.map fun s => s.getPileAtPos onFirstFoundation) =
      some (some (some (PileRef.foundation 0))) ∧
    canMoveToTableau kingOfSpades [] = true ∧
    canMoveToFoundation kingOfSpades [] = false ∧
    ((plainGame.bind fun s => s.run dragToFoundation).map fun s => s.foundations) =
      some [[kingOfSpades], [], [], []] ∧
    ((plainGame.bind fun s => s.run dragToFoundation).map fun s => s.tableau[0]?) =
      some (some []) := by
  decide

/-- Running events from a reachable session reaches a reachable session. -/
theorem reachable_run : ∀ (events : List Event) (s s1 : Solitaire),
    Reachable s → s.run events = some s1 → Reachable s1 := by
  intro events
  induction events with
  | nil =>
    intro s s1 hs hrun
    simp only [Solitaire.run, Option.some.injEq] at hrun
    exact hrun ▸ hs
  | cons e rest ih =>
    intro s s1 hs hrun
    simp only [Solitaire.run] at hrun
    cases hstep : s.handle e with
    | none => rw [hstep] at hrun; cases hrun
    | some s2 =>
      rw [hstep] at hrun
      exact ih s2 s1 (Reachable.event s s2 e hs hstep) hrun

/-- C10 at a failing input: the session reached from a new game by dragging the face-up
king of spades of tableau pile 0 onto the empty foundation 0 has a foundation that holds
the king alone, which is not a run 1, 2, ..., k. -/
theorem foundation_invariant_broken :
    ∃ s, Reachable s ∧ s.foundations[0]? = some [kingOfSpades] ∧
      s.foundations.all foundationBuilt = false := by
  have h : ((plainGame.bind fun s => s.run dragToFoundation).map fun s =>
      (s.foundations[0]?, s.foundations.all foundationBuilt)) =
        some (some [kingOfSpades], false) := by
    decide
  cases hg : plainGame with
  | none => rw [hg] at h; cases h
  | some s0 =>
    rw [hg] at h
    simp only [Option.some_bind] at h
    cases hr : s0.run dragToFoundation with
    | none => rw [hr] at h; cases h
    | some s1 =>
      rw [hr] at h
      simp only [Option.map_some', Option.some.injEq, Prod.mk.injEq] at h
      exact ⟨s1, reachable_run _ s0 s1
        (Reachable.newGame plainAssets blank s0 (fun _ _ => rfl)
          (fun deck => List.Perm.refl deck) hg) hr, h.1, h.2⟩

/-! ### Pointer up without a move -/

/-- C13: a pointer-up while nothing is lifted changes nothing at all; a pointer-up that
resolves to no pile, or to the source pile itself, only clears the drag state
(`draggedCards` empty, `draggedSourcePile` null) and leaves the tableau, the
foundations, the stock and the waste exactly as they were. -/
theorem handleMouseUp_snap_back (s : Solitaire) (pos : Pointer) :
    (s.draggedCards = [] → s.handleMouseUp pos = some s) ∧
    (s.draggedCards ≠ [] → s.getPileAtPos pos = some none →
      s.handleMouseUp pos = some s.clearDrag) ∧
    (s.draggedCards ≠ [] → ∀ target, s.getPileAtPos pos = some (some target) →
      s.draggedSourcePile = some target → s.handleMouseUp pos = some s.clearDrag) ∧
    (s.clearDrag.tableau = s.tableau ∧ s.clearDrag.foundations = s.foundations ∧
      s.clearDrag.stock = s.stock ∧ s.clearDrag.waste = s.waste ∧
      s.clearDrag.draggedCards = [] ∧ s.clearDrag.draggedSourcePile = none) := by
  refine ⟨?_, ?_, ?_, rfl, rfl, rfl, rfl, rfl, rfl⟩
  · intro h
    simp [Solitaire.handleMouseUp, h]
  · intro h hpile
    cases hd : s.draggedCards with
    | nil => exact absurd hd h
    | cons first rest => simp [Solitaire.handleMouseUp, hd, hpile]
  · intro h target hpile hsrc
    cases hd : s.draggedCards with
    | nil => exact absurd hd h
    | cons first rest => simp [Solitaire.handleMouseUp, hd, hpile, hsrc]

theorem handleMouseUp_snap_back_witness :
    kingLifted.draggedCards = [kingOfSpades] ∧
    kingLifted.handleMouseUp nowhere = some kingLifted.clearDrag ∧
    kingLifted.handleMouseUp onFirstTableauCard = some kingLifted.clearDrag ∧
    kingLifted.clearDrag.handleMouseUp onFirstFoundation = some kingLifted.clearDrag :=
  ⟨by decide,
    (handleMouseUp_snap_back kingLifted nowhere).2.1 (by decide) (by decide),
    (handleMouseUp_snap_back kingLifted onFirstTableauCard).2.2.1 (by decide)
      (PileRef.tableau 0) (by decide) (by decide),
    (handleMouseUp_snap_back kingLifted.clearDrag onFirstFoundation).1 (by decide)⟩

/-! ### Finding a foundation -/

theorem findFoundationFrom_some (card : Card) : ∀ (fs : List (List Card)) (i k : Nat),
    findFoundationFrom card i fs = some k →
    i ≤ k ∧ (∃ f, fs[k - i]? = some f ∧ canMoveToFoundation card f = true) ∧
      ∀ j, j < k - i → ∀ g, fs[j]? = some g → canMoveToFoundation card g = false := by
  intro fs
  induction fs with
  | nil => intro i k h; simp [findFoundationFrom] at h
  | cons f rest ih =>
    intro i k h
    rw [findFoundationFrom] at h
    by_cases hf : canMoveToFoundation card f = true
    · rw [if_pos hf] at h
      cases h
      refine ⟨le_refl _, ⟨f, by simp, hf⟩, ?_⟩
      intro j hj
      simp at hj
    · rw [if_neg hf] at h
      obtain ⟨hik, ⟨g, hg, hcan⟩, hmin⟩ := ih (i + 1) k h
      have hk : k - i = (k - (i + 1)) + 1 := by omega
      refine ⟨by omega, ⟨g, by rw [hk]; simpa using hg, hcan⟩, ?_⟩
      intro j hj g2 hg2
      cases j with
      | zero =>
        simp at hg2
        subst hg2
        simpa using hf
      | succ j2 =>
        simp at hg2
        exact hmin j2 (by omega) g2 hg2

theorem findFoundationFrom_none (card : Card) : ∀ (fs : List (List Card)) (i : Nat),
    findFoundationFrom card i fs = none ↔ ∀ f ∈ fs, canMoveToFoundation card f = false := by
  intro fs
  induction fs with
  | nil => intro i; simp [findFoundationFrom]
  | cons f rest ih =>
    intro i
    rw [findFoundationFrom]
    by_cases hf : canMoveToFoundation card f = true
    · rw [if_pos hf]
      simp [hf]
    · rw [if_neg hf, ih (i + 1)]
      simp [hf]

theorem findFoundationFrom_first (card : Card) : ∀ (fs : List (List Card)) (i k : Nat) (f : List Card),
    fs[k]? = some f → canMoveToFoundation card f = true →
    (∀ j, j < k → ∀ g, fs[j]? = some g → canMoveToFoundation card g = false) →
    findFoundationFrom card i fs = some (i + k) := by
  intro fs
  induction fs with
  | nil => intro i k f h; simp at h
  | cons f0 rest ih =>
    intro i k f hk hf hmin
    rw [findFoundationFrom]
    cases k with
    | zero =>
      simp at hk
      subst hk
      rw [if_pos hf]
      rfl
    | succ k2 =>
      have h0 : canMoveToFoundation card f0 = false := hmin 0 (by omega) f0 (by simp)
      rw [if_neg (by simp [h0])]
      simp at hk
      rw [ih (i + 1) k2 f hk hf (fun j hj g hg => hmin (j + 1) (by omega) g (by simpa using hg))]
      congr 1
      omega

/-- C14: `findValidFoundationPile card` returns foundation `i` exactly when foundation
`i` accepts the card (`canMoveToFoundation`) and no foundation of smaller index does; it
returns no pile exactly when every foundation rejects the card. -/
theorem findValidFoundationPile_first (s : Solitaire) (card : Card) :
    (∀ r, s.findValidFoundationPile card = some r ↔
      ∃ i, r = PileRef.foundation i ∧
        (∃ f, s.foundations[i]? = some f ∧ canMoveToFoundation card f = true) ∧
        ∀ j, j < i → ∀ g, s.foundations[j]? = some g → canMoveToFoundation card g = false) ∧
    (s.findValidFoundationPile card = none ↔
      ∀ f ∈ s.foundations, canMoveToFoundation card f = false) := by
  constructor
  · intro r
    unfold Solitaire.findValidFoundationPile
    constructor
    · intro h
      cases hfind : findFoundationFrom card 0 s.foundations with
      | none => rw [hfind] at h; cases h
      | some k =>
        rw [hfind] at h
        cases h
        obtain ⟨-, hacc, hmin⟩ := findFoundationFrom_some card s.foundations 0 k hfind
        exact ⟨k, rfl, by simpa using hacc, by simpa using hmin⟩
    · rintro ⟨i, rfl, ⟨f, hf, hcan⟩, hmin⟩
      rw [findFoundationFrom_first card s.foundations 0 i f hf hcan hmin]
      simp
  · unfold Solitaire.findValidFoundationPile
    rw [← findFoundationFrom_none card s.foundations 0]
    cases findFoundationFrom card 0 s.foundations <;> simp

/-! ### Stock clicks leave the rest alone -/

/-- C19: a pointer-down inside the stock rectangle leaves the tableau, the foundations
and the drag state (so no drag starts) unchanged; with a non-empty stock it moves exactly
the top stock card, flipped, onto the waste (and records the deal time); with an empty
stock and a non-empty waste it moves the whole waste back, flipped and in reverse order;
with both empty it changes nothing. -/
theorem stock_click_frame (s : Solitaire) (pos : Pointer) (now : Int)
    (hpos : pos.inStockRect = true) :
    ∃ s1, s.handleMouseDown pos now = some s1 ∧
      s1.tableau = s.tableau ∧ s1.foundations = s.foundations ∧
      s1.draggedCards = s.draggedCards ∧ s1.draggedSourcePile = s.draggedSourcePile ∧
      s1.draggedStartIndex = s.draggedStartIndex ∧ s1.gameWon = s.gameWon ∧
      (∀ rest top, s.stock = rest ++ [top] →
        s1.stock = rest ∧ s1.waste = s.waste ++ [top.flip]) ∧
      (s.stock = [] → s.waste ≠ [] →
        s1.stock = s.waste.reverse.map Card.flip ∧ s1.waste = []) ∧
      (s.stock = [] → s.waste = [] → s1 = s) := by
  refine ⟨s.clickStock now, by simp [Solitaire.handleMouseDown, hpos], ?_⟩
  rcases List.eq_nil_or_concat s.stock with hnil | ⟨rest, top, hst⟩
  · by_cases hw : s.waste = []
    · have hsame : s.clickStock now = s := by
        simp [Solitaire.clickStock, hnil, hw]
      rw [hsame]
      refine ⟨rfl, rfl, rfl, rfl, rfl, rfl, ?_, ?_, fun _ _ => rfl⟩
      · intro rest top h
        rw [hnil] at h
        simp at h
      · intro _ h
        exact absurd hw h
    · rw [clickStock_restore s now hnil hw]
      refine ⟨rfl, rfl, rfl, rfl, rfl, rfl, ?_, fun _ _ => ⟨rfl, rfl⟩, fun _ h => absurd h hw⟩
      intro rest top h
      rw [hnil] at h
      simp at h
  · rw [List.concat_eq_append] at hst
    rw [clickStock_deal s now rest top hst]
    refine ⟨rfl, rfl, rfl, rfl, rfl, rfl, ?_, ?_, ?_⟩
    · intro rest2 top2 h
      rw [hst] at h
      obtain ⟨h1, h2⟩ := List.append_inj' h rfl
      simp only [List.cons.injEq, and_true] at h2
      subst h1 h2
      exact ⟨rfl, rfl⟩
    · intro h
      rw [hst] at h
      simp at h
    · intro h
      rw [hst] at h
      simp at h

theorem stock_click_frame_witness :
    ∃ s1, threeCardStock.handleMouseDown onStock 7 = some s1 ∧
      s1.tableau = threeCardStock.tableau ∧ s1.foundations = threeCardStock.foundations ∧
      s1.draggedCards = threeCardStock.draggedCards ∧
      s1.draggedSourcePile = threeCardStock.draggedSourcePile ∧
      s1.draggedStartIndex = threeCardStock.draggedStartIndex ∧
      s1.gameWon = threeCardStock.gameWon ∧
      (∀ rest top, threeCardStock.stock = rest ++ [top] →
        s1.stock = rest ∧ s1.waste = threeCardStock.waste ++ [top.flip]) ∧
      (threeCardStock.stock = [] → threeCardStock.waste ≠ [] →
        s1.stock = threeCardStock.waste.reverse.map Card.flip ∧ s1.waste = []) ∧
      (threeCardStock.stock = [] → threeCardStock.waste = [] → s1 = threeCardStock) :=
  stock_click_frame threeCardStock onStock 7 (by decide)

/-! ### Piles of a session -/

theorem pileAt_setPile_self (s : Solitaire) (r : PileRef) (old pile : List Card)
    (h : s.pileAt r = some old) : (s.setPile r pile).pileAt r = some pile := by
  cases r with
  | tableau i =>
    simp only [Solitaire.pileAt] at h
    have hi : i < s.tableau.length := by
      by_contra hc
      rw [List.getElem?_eq_none (by omega)] at h
      cases h
    simp [Solitaire.pileAt, Solitaire.setPile, hi]
  | foundation i =>
    simp only [Solitaire.pileAt] at h
    have hi : i < s.foundations.length := by
      by_contra hc
      rw [List.getElem?_eq_none (by omega)] at h
      cases h
    simp [Solitaire.pileAt, Solitaire.setPile, hi]
  | stock => rfl
  | waste => rfl

theorem pileAt_setPile_ne (s : Solitaire) (r r2 : PileRef) (pile : List Card) (h : r ≠ r2) :
    (s.setPile r pile).pileAt r2 = s.pileAt r2 := by
  cases r <;> cases r2 <;> simp [Solitaire.pileAt, Solitaire.setPile] at h ⊢
  · exact List.getElem?_set_ne h
  · exact List.getElem?_set_ne h

theorem moveCardsAt_distinct (s : Solitaire) (source target : PileRef)
    (sourcePile targetPile : List Card) (startIndex endIndex : Int) (out : MoveOutcome)
    (hne : source ≠ target) (hs : s.pileAt source = some sourcePile)
    (ht : s.pileAt target = some targetPile)
    (hmove : moveCards sourcePile targetPile startIndex endIndex = some out) :
    s.moveCardsAt source target startIndex endIndex =
      some (out.moved, (s.setPile source out.sourcePile).setPile target out.targetPile) := by
  unfold Solitaire.moveCardsAt
  rw [hs, ht]
  simp only [if_neg hne, hmove]

theorem setPile_drag (s : Solitaire) (r : PileRef) (pile : List Card) :
    (s.setPile r pile).draggedCards = s.draggedCards ∧
    (s.setPile r pile).draggedSourcePile = s.draggedSourcePile ∧
    (s.setPile r pile).draggedStartIndex = s.draggedStartIndex ∧
    (s.setPile r pile).gameWon = s.gameWon ∧
    (s.setPile r pile).lastDealTime = s.lastDealTime := by
  cases r <;> simp [Solitaire.setPile]

theorem clearDrag_pileAt (s : Solitaire) (r : PileRef) : s.clearDrag.pileAt r = s.pileAt r := by
  cases r <;> rfl

/-- The effect on the piles of a default-`endIndex` move between two distinct piles from
a start index inside the source. -/
theorem moveCardsAt_default (s : Solitaire) (source target : PileRef)
    (sourcePile targetPile : List Card) (k : Nat)
    (hne : source ≠ target) (hs : s.pileAt source = some sourcePile)
    (ht : s.pileAt target = some targetPile) (hk : k < sourcePile.length) :
    ∃ s1, s.moveCardsAt source target (k : Int) (-1) = some (true, s1) ∧
      s1.pileAt target = some (targetPile ++ sourcePile.drop k) ∧
      s1.pileAt source = some (flipBack (sourcePile.take k)) ∧
      (∀ r, r ≠ source → r ≠ target → s1.pileAt r = s.pileAt r) ∧
      s1.draggedCards = s.draggedCards ∧ s1.draggedSourcePile = s.draggedSourcePile ∧
      s1.draggedStartIndex = s.draggedStartIndex ∧ s1.gameWon = s.gameWon ∧
      s1.lastDealTime = s.lastDealTime := by
  have hmove := moveCards_default sourcePile targetPile (k : Int) (by omega) (by exact_mod_cast hk)
  rw [Int.toNat_ofNat] at hmove
  refine ⟨_, moveCardsAt_distinct s source target sourcePile targetPile _ _ _ hne hs ht hmove,
    ?_, ?_, ?_, ?_⟩
  · have ht2 : (s.setPile source (flipBack (sourcePile.take k))).pileAt target = some targetPile := by
      rw [pileAt_setPile_ne _ _ _ _ hne, ht]
    exact pileAt_setPile_self _ _ _ _ ht2
  · rw [pileAt_setPile_ne _ _ _ _ (Ne.symm hne)]
    exact pileAt_setPile_self _ _ _ _ hs
  · intro r h1 h2
    rw [pileAt_setPile_ne _ _ _ _ (Ne.symm h2), pileAt_setPile_ne _ _ _ _ (Ne.symm h1)]
  · obtain ⟨a1, a2, a3, a4, a5⟩ := setPile_drag (s.setPile source (flipBack (sourcePile.take k)))
      target (targetPile ++ sourcePile.drop k)
    obtain ⟨b1, b2, b3, b4, b5⟩ := setPile_drag s source (flipBack (sourcePile.take k))
    exact ⟨a1.trans b1, a2.trans b2, a3.trans b3, a4.trans b4, a5.trans b5⟩

theorem flipBack_top_faceUp (pile : List Card) (top : Card)
    (h : (flipBack pile).getLast? = some top) : top.faceUp = true := by
  rcases List.eq_nil_or_concat pile with rfl | ⟨l, c, rfl⟩
  · simp [flipBack_nil] at h
  · rw [List.concat_eq_append, flipBack_concat] at h
    simp at h
    subst h
    cases hc : c.isFaceUp <;> simp_all [Card.flip, Card.isFaceUp]

/-! ### Dropping a lifted group on a tableau pile -/

/-- C12, amended: in a Dragging state whose lifted cards are, at the pointer-up, still
`source[startIndex..]` of a tableau pile, or the single top card of the waste, a
pointer-up on a tableau pile `T` other than
the source that accepts the first lifted card (`canMoveToTableau`) leaves `T` equal to
its old contents followed by the lifted cards in order, the source equal to its cards
below the lifted group with its new top, if any, face-up, every other pile unchanged,
and the drag state cleared. -/
theorem handleMouseUp_moves_group (s : Solitaire) (pos : Pointer) (source : PileRef) (j : Nat)
    (sourcePile targetPile : List Card) (first : Card)
    (hsrc : s.draggedSourcePile = some source)
    (hsp : s.pileAt source = some sourcePile)
    (hfirst : s.draggedCards.head? = some first)
    (hlift : (∃ i, source = PileRef.tableau i ∧ 0 ≤ s.draggedStartIndex ∧
        s.draggedStartIndex < (sourcePile.length : Int) ∧
        s.draggedCards = sourcePile.drop s.draggedStartIndex.toNat) ∨
      (source = PileRef.waste ∧ ∃ top, sourcePile.getLast? = some top ∧ s.draggedCards = [top]))
    (htarget : s.getPileAtPos pos = some (some (PileRef.tableau j)))
    (hne : PileRef.tableau j ≠ source)
    (htp : s.pileAt (PileRef.tableau j) = some targetPile)
    (hcan : canMoveToTableau first targetPile = true) :
    ∃ s1 below, s.handleMouseUp pos = some s1 ∧
      sourcePile = below ++ s.draggedCards ∧
      s1.pileAt (PileRef.tableau j) = some (targetPile ++ s.draggedCards) ∧
      s1.pileAt source = some (flipBack below) ∧
      (flipBack below).map Card.ident = below.map Card.ident ∧
      (∀ top, (flipBack below).getLast? = some top → top.faceUp = true) ∧
      (∀ r, r ≠ source → r ≠ PileRef.tableau j → s1.pileAt r = s.pileAt r) ∧
      s1.draggedCards = [] ∧ s1.draggedSourcePile = none := by
  have hne2 : source ≠ PileRef.tableau j := Ne.symm hne
  have hne3 : ¬ (some (PileRef.tableau j) = some source) := by
    intro h
    exact hne (Option.some.inj h)
  have key : ∀ k : Nat, k < sourcePile.length → s.draggedCards = sourcePile.drop k →
      (s.moveCardsAt source (PileRef.tableau j) (k : Int) (-1)).map (fun r => r.2.clearDrag) =
        s.handleMouseUp pos →
      ∃ s1 below, s.handleMouseUp pos = some s1 ∧
        sourcePile = below ++ s.draggedCards ∧
        s1.pileAt (PileRef.tableau j) = some (targetPile ++ s.draggedCards) ∧
        s1.pileAt source = some (flipBack below) ∧
        (flipBack below).map Card.ident = below.map Card.ident ∧
        (∀ top, (flipBack below).getLast? = some top → top.faceUp = true) ∧
        (∀ r, r ≠ source → r ≠ PileRef.tableau j → s1.pileAt r = s.pileAt r) ∧
        s1.draggedCards = [] ∧ s1.draggedSourcePile = none := by
    intro k hk hdrag hup
    obtain ⟨s1, hmove, h1, h2, h3, -⟩ :=
      moveCardsAt_default s source (PileRef.tableau j) sourcePile targetPile k hne2 hsp htp hk
    rw [hmove] at hup
    refine ⟨s1.clearDrag, sourcePile.take k, hup.symm, ?_, ?_, ?_, map_ident_flipBack _,
      flipBack_top_faceUp _, ?_, rfl, rfl⟩
    · rw [hdrag, List.take_append_drop]
    · rw [clearDrag_pileAt, h1, hdrag]
    · rw [clearDrag_pileAt, h2]
    · intro r hr1 hr2
      rw [clearDrag_pileAt, h3 r hr1 hr2]
  rcases hlift with ⟨i, hi, h0, h1, hdrag⟩ | ⟨hw, top, htop, hdrag⟩
  · obtain ⟨k, hk⟩ := Int.eq_ofNat_of_zero_le h0
    have hklt : k < sourcePile.length := by rw [hk] at h1; exact_mod_cast h1
    have hnw : source ≠ PileRef.waste := by rw [hi]; simp
    refine key k hklt (by rw [hdrag, hk, Int.toNat_ofNat]) ?_
    unfold Solitaire.handleMouseUp
    rw [hfirst]
    simp only [htarget, hsrc, if_neg hne3, htp, hcan, if_true, if_neg hnw]
    rw [hk]
    cases s.moveCardsAt source (PileRef.tableau j) (↑k) (-1) <;> rfl
  · obtain ⟨below, c, hbelow⟩ : ∃ below c, sourcePile = below ++ [c] := by
      rcases List.eq_nil_or_concat sourcePile with h | ⟨l, c, h⟩
      · rw [h] at htop; simp at htop
      · exact ⟨l, c, by rw [h, List.concat_eq_append]⟩
    have hc : c = top := by
      rw [hbelow] at htop
      simpa using htop
    subst hc
    have hlen : sourcePile.length = below.length + 1 := by rw [hbelow]; simp
    refine key below.length (by omega) (by rw [hdrag, hbelow]; simp) ?_
    unfold Solitaire.handleMouseUp
    rw [hfirst]
    simp only [htarget, hsrc, if_neg hne3, htp, hcan, if_true, if_pos hw]
    unfold Solitaire.moveTopAt
    rw [hsp]
    simp only
    have hidx : (sourcePile.length : Int) - 1 = (below.length : Int) := by
      rw [hlen]; push_cast; ring
    rw [hidx]
    cases s.moveCardsAt source (PileRef.tableau j) (↑below.length) (-1) <;> rfl

theorem handleMouseUp_moves_group_witness :
    ∃ s1 below, queenLifted.handleMouseUp onFirstTableauCard = some s1 ∧
      seventhPile = below ++ queenLifted.draggedCards ∧
      s1.pileAt (PileRef.tableau 0) = some ([kingOfSpades] ++ queenLifted.draggedCards) ∧
      s1.pileAt (PileRef.tableau 6) = some (flipBack below) ∧
      (flipBack below).map Card.ident = below.map Card.ident ∧
      (∀ top, (flipBack below).getLast? = some top → top.faceUp = true) ∧
      (∀ r, r ≠ PileRef.tableau 6 → r ≠ PileRef.tableau 0 →
        s1.pileAt r = queenLifted.pileAt r) ∧
      s1.draggedCards = [] ∧ s1.draggedSourcePile = none :=
  handleMouseUp_moves_group queenLifted onFirstTableauCard (PileRef.tableau 6) 0
    seventhPile [kingOfSpades] ⟨Suit.diamonds, 12, true⟩ (by decide) (by decide) (by decide)
    (Or.inl ⟨6, rfl, by decide, by decide, by decide⟩) (by decide) (by decide) (by decide)
    (by decide)


/-! ### Starting a drag -/

theorem pickTableau_idle (pos : Pointer) : ∀ (count i : Nat) (s s2 : Solitaire),
    s.draggedCards = [] → Solitaire.pickTableau pos count i s = some s2 →
    s2 = s ∨ ∃ (idx : Nat) (pile : List Card) (k : Nat) (card : Card), s.tableau[idx]? = some pile ∧ pile[k]? = some card ∧
      card.faceUp = true ∧
      s2 = { s with
        draggedCards := pile.drop k
        draggedStartIndex := (k : Int)
        draggedSourcePile := some (PileRef.tableau idx) } := by
  intro count
  induction count with
  | zero =>
    intro i s s2 _ h
    simp only [Solitaire.pickTableau, Option.some.injEq] at h
    exact Or.inl h.symm
  | succ n ih =>
    intro i s s2 hidle h
    have hempty : s.draggedCards.isEmpty = true := by rw [hidle]; rfl
    rw [Solitaire.pickTableau] at h
    by_cases hcol : pos.inColumn i = true
    · rw [if_pos hcol] at h
      cases hp : s.tableau[i]? with
      | none => rw [hp] at h; cases h
      | some pile =>
        rw [hp] at h
        simp only at h
        cases hc : cardAt pile (clampIndex pos.rowIndex pile.length) with
        | none => rw [hc] at h; cases h
        | some card =>
          rw [hc] at h
          simp only at h
          unfold cardAt at hc
          by_cases hneg : clampIndex pos.rowIndex pile.length < 0
          · rw [if_pos hneg] at hc; cases hc
          · rw [if_neg hneg] at hc
            obtain ⟨k, hk⟩ := Int.eq_ofNat_of_zero_le (not_lt.1 hneg)
            rw [hk, Int.toNat_ofNat] at hc
            rw [hk, Int.toNat_ofNat] at h
            have hklt : k < pile.length := by
              by_contra hge
              rw [List.getElem?_eq_none (by omega)] at hc
              cases hc
            by_cases hhit : (card.isFaceUp && pos.onTableauCard i k) = true
            · rw [if_pos hhit] at h
              rw [copyCards_eq pile _ _ _ (by omega)] at h
              simp only [Option.some.injEq] at h
              refine Or.inr ⟨i, pile, k, card, hp, hc, ?_, ?_⟩
              · simp only [Bool.and_eq_true] at hhit
                exact hhit.1
              · rw [← h]
                have htake : List.take (pile.length - k) (List.drop k pile) = List.drop k pile := by
                  apply List.take_of_length_le
                  simp
                simp [htake]
            · rw [if_neg hhit] at h
              simp only [hempty, Bool.not_true, Bool.false_eq_true, if_false] at h
              exact ih (i + 1) s s2 hidle h
    · rw [if_neg hcol] at h
      simp only [hempty, Bool.not_true, Bool.false_eq_true, if_false] at h
      exact ih (i + 1) s s2 hidle h

/-- C20, amended: when `handleMouseDown` starts a drag from the Idle state it changes no
pile; a drag from a tableau pile lifts `pile[k..]` for a face-up card at index `k` and
records `draggedStartIndex = k`; a drag from the waste lifts the single top card of the
waste and records `draggedStartIndex = 0`, whatever the size of the waste. -/
theorem handleMouseDown_drag_start (s : Solitaire) (pos : Pointer) (now : Int) (s1 : Solitaire)
    (hidle : s.draggedCards = [])
    (hdown : s.handleMouseDown pos now = some s1)
    (hdrag : s1.draggedCards ≠ []) :
    s1.tableau = s.tableau ∧ s1.foundations = s.foundations ∧ s1.stock = s.stock ∧
    s1.waste = s.waste ∧
    ((∃ (i : Nat) (pile : List Card) (k : Nat) (card : Card), s1.draggedSourcePile = some (PileRef.tableau i) ∧
        s.tableau[i]? = some pile ∧ s1.draggedStartIndex = (k : Int) ∧
        pile[k]? = some card ∧ card.faceUp = true ∧ s1.draggedCards = pile.drop k) ∨
      (∃ top, s1.draggedSourcePile = some PileRef.waste ∧ s.waste.getLast? = some top ∧
        s1.draggedCards = [top] ∧ s1.draggedStartIndex = 0)) := by
  unfold Solitaire.handleMouseDown at hdown
  by_cases hstock : pos.inStockRect = true
  · rw [if_pos hstock] at hdown
    simp only [Option.some.injEq] at hdown
    exfalso
    apply hdrag
    rw [← hdown]
    unfold Solitaire.clickStock
    split
    · exact hidle
    · split <;> exact hidle
  · rw [if_neg hstock] at hdown
    cases hpick : Solitaire.pickTableau pos 7 0 s with
    | none => rw [hpick] at hdown; cases hdown
    | some s2 =>
      rw [hpick] at hdown
      simp only [Option.some.injEq] at hdown
      rcases pickTableau_idle pos 7 0 s s2 hidle hpick with hsame | ⟨i, pile, k, card, hp, hc, hf, hs2⟩
      · subst hsame
        unfold Solitaire.pickWaste at hdown
        cases hw : s2.waste.getLast? with
        | none =>
          rw [hw] at hdown
          exfalso
          apply hdrag
          rw [← hdown]
          split <;> exact hidle
        | some top =>
          rw [hw] at hdown
          by_cases hcond : (s2.draggedCards.isEmpty && !s2.waste.isEmpty) = true
          · rw [if_pos hcond] at hdown
            simp only at hdown
            by_cases hon : pos.onWasteCard = true
            · rw [if_pos hon] at hdown
              subst hdown
              exact ⟨rfl, rfl, rfl, rfl, Or.inr ⟨top, rfl, rfl, rfl, rfl⟩⟩
            · rw [if_neg hon] at hdown
              subst hdown
              exact absurd hidle hdrag
          · rw [if_neg hcond] at hdown
            subst hdown
            exact absurd hidle hdrag
      · have hne : s2.draggedCards ≠ [] := by
          rw [hs2]
          show pile.drop k ≠ []
          intro hnil
          have hlen := congrArg List.length hnil
          have hklt : k < pile.length := by
            by_contra hge
            rw [List.getElem?_eq_none (by omega)] at hc
            cases hc
          simp at hlen
          omega
        have hkeep : s2.pickWaste pos = s2 := by
          unfold Solitaire.pickWaste
          have hfalse : s2.draggedCards.isEmpty = false := by
            cases hd : s2.draggedCards with
            | nil => exact absurd hd hne
            | cons a l => rfl
          simp [hfalse]
        rw [hkeep] at hdown
        subst hdown
        rw [hs2]
        exact ⟨rfl, rfl, rfl, rfl, Or.inl ⟨i, pile, k, card, rfl, hp, rfl, hc, hf, rfl⟩⟩

theorem handleMouseDown_drag_start_witness :
    twoOnWaste.draggedCards = [] ∧
    ∃ s1, twoOnWaste.handleMouseDown onWaste 0 = some s1 ∧
      s1.tableau = twoOnWaste.tableau ∧ s1.foundations = twoOnWaste.foundations ∧
      s1.stock = twoOnWaste.stock ∧ s1.waste = twoOnWaste.waste ∧
      ((∃ (i : Nat) (pile : List Card) (k : Nat) (card : Card), s1.draggedSourcePile = some (PileRef.tableau i) ∧
          twoOnWaste.tableau[i]? = some pile ∧ s1.draggedStartIndex = (k : Int) ∧
          pile[k]? = some card ∧ card.faceUp = true ∧ s1.draggedCards = pile.drop k) ∨
        (∃ top, s1.draggedSourcePile = some PileRef.waste ∧
          twoOnWaste.waste.getLast? = some top ∧
          s1.draggedCards = [top] ∧ s1.draggedStartIndex = 0)) :=
  ⟨by decide, (twoOnWaste.handleMouseDown onWaste 0).getD blank, by decide,
    handleMouseDown_drag_start twoOnWaste onWaste 0
      ((twoOnWaste.handleMouseDown onWaste 0).getD blank) (by decide) (by decide) (by decide)⟩

/-- C20 as stated fails on a waste of two cards: with the jack of diamonds under the ten
of diamonds on the waste, a pointer-down on the waste lifts the ten alone and records
`draggedStartIndex = 0`, although the ten is at index 1 and `waste[0..]` is both cards. -/
theorem waste_drag_records_index_zero :
    twoOnWaste.draggedCards = [] ∧
    twoOnWaste.waste = [⟨Suit.diamonds, 11, true⟩, ⟨Suit.diamonds, 10, true⟩] ∧
    ((twoOnWaste.handleMouseDown onWaste 0).map fun s =>
      (s.draggedCards, s.draggedSourcePile, s.draggedStartIndex)) =
        some ([⟨Suit.diamonds, 10, true⟩], some PileRef.waste, 0) ∧
    twoOnWaste.waste[0]? ≠ some ⟨Suit.diamonds, 10, true⟩ ∧
    twoOnWaste.waste[1]? = some ⟨Suit.diamonds, 10, true⟩ ∧
    twoOnWaste.waste.drop 0 ≠ [⟨Suit.diamonds, 10, true⟩] := by
  decide

/-! ### The shape of what the handlers do -/

theorem canMoveToFoundation_own_top (card : Card) (pile : List Card)
    (h : pile.getLast? = some card) : canMoveToFoundation card pile = false := by
  unfold canMoveToFoundation
  rw [h]
  simp [Card.getValue]

theorem findValidFoundationPile_ne (s : Solitaire) (card : Card) (pileRef target : PileRef)
    (pile : List Card) (hp : s.pileAt pileRef = some pile) (htop : pile.getLast? = some card)
    (hfind : s.findValidFoundationPile card = some target) : pileRef ≠ target := by
  intro heq
  subst heq
  unfold Solitaire.findValidFoundationPile at hfind
  cases hf : findFoundationFrom card 0 s.foundations with
  | none => rw [hf] at hfind; cases hfind
  | some k =>
    rw [hf] at hfind
    simp only [Option.some.injEq] at hfind
    subst hfind
    obtain ⟨-, ⟨f, hfk, hcan⟩, -⟩ := findFoundationFrom_some card s.foundations 0 k hf
    simp only [Nat.sub_zero, Solitaire.pileAt] at hfk hp
    rw [hp] at hfk
    cases hfk
    rw [canMoveToFoundation_own_top card pile htop] at hcan
    cases hcan

theorem handleMouseUp_shape (s : Solitaire) (pos : Pointer) (s1 : Solitaire)
    (h : s.handleMouseUp pos = some s1) :
    s1 = s ∨ s1 = s.clearDrag ∨
      ∃ source target startIndex r, source ≠ target ∧
        s.moveCardsAt source target startIndex (-1) = some r ∧ s1 = r.2.clearDrag := by
  unfold Solitaire.handleMouseUp at h
  cases hd : s.draggedCards.head? with
  | none =>
    rw [hd] at h
    simp only [Option.some.injEq] at h
    exact Or.inl h.symm
  | some first =>
    rw [hd] at h
    simp only at h
    cases hg : s.getPileAtPos pos with
    | none => rw [hg] at h; cases h
    | some found =>
      rw [hg] at h
      cases found with
      | none =>
        simp only [Option.some.injEq] at h
        exact Or.inr (Or.inl h.symm)
      | some target =>
        simp only at h
        by_cases hsame : some target = s.draggedSourcePile
        · rw [if_pos hsame] at h
          simp only [Option.some.injEq] at h
          exact Or.inr (Or.inl h.symm)
        · rw [if_neg hsame] at h
          cases htp : s.pileAt target with
          | none => rw [htp] at h; cases h
          | some targetPile =>
            rw [htp] at h
            simp only at h
            cases hsrc : s.draggedSourcePile with
            | none =>
              rw [hsrc] at h
              simp only at h
              split at h
              · cases h
              · split at h
                · cases h
                · simp only [Option.some.injEq] at h
                  exact Or.inr (Or.inl h.symm)
            | some source =>
              rw [hsrc] at h hsame
              have hne : source ≠ target := by
                intro heq
                exact hsame (by rw [heq])
              simp only at h
              have top : ∀ s2, (match s.moveTopAt source target with
                  | none => none
                  | some r => some r.2.clearDrag) = some s2 →
                  ∃ source target startIndex r, source ≠ target ∧
                    s.moveCardsAt source target startIndex (-1) = some r ∧ s2 = r.2.clearDrag := by
                intro s2 h2
                unfold Solitaire.moveTopAt at h2
                cases hsp : s.pileAt source with
                | none => rw [hsp] at h2; cases h2
                | some sourcePile =>
                  rw [hsp] at h2
                  simp only at h2
                  cases hm : s.moveCardsAt source target ((sourcePile.length : Int) - 1) (-1) with
                  | none => rw [hm] at h2; cases h2
                  | some r =>
                    rw [hm] at h2
                    simp only [Option.some.injEq] at h2
                    exact ⟨source, target, _, r, hne, hm, h2.symm⟩
              split at h
              · split at h
                · exact Or.inr (Or.inr (top s1 h))
                · cases hm : s.moveCardsAt source target s.draggedStartIndex (-1) with
                  | none => rw [hm] at h; cases h
                  | some r =>
                    rw [hm] at h
                    simp only [Option.some.injEq] at h
                    exact Or.inr (Or.inr ⟨source, target, _, r, hne, hm, h.symm⟩)
              · split at h
                · exact Or.inr (Or.inr (top s1 h))
                · simp only [Option.some.injEq] at h
                  exact Or.inr (Or.inl h.symm)

theorem handleDoubleClick_shape (s : Solitaire) (pos : Pointer) (now : Int) (s1 : Solitaire)
    (h : s.handleDoubleClick pos now = some s1) :
    s1 = s ∨
      ∃ source target startIndex r, source ≠ target ∧
        s.moveCardsAt source target startIndex (-1) = some r ∧ s1 = r.2 := by
  unfold Solitaire.handleDoubleClick at h
  cases hg : s.getPileAtPos pos with
  | none => rw [hg] at h; cases h
  | some found =>
    rw [hg] at h
    cases found with
    | none =>
      simp only [Option.some.injEq] at h
      exact Or.inl h.symm
    | some pileRef =>
      simp only at h
      cases hp : s.pileAt pileRef with
      | none => rw [hp] at h; cases h
      | some pile =>
        rw [hp] at h
        simp only at h
        cases htop : pile.getLast? with
        | none =>
          rw [htop] at h
          simp only [Option.some.injEq] at h
          exact Or.inl h.symm
        | some card =>
          rw [htop] at h
          simp only at h
          split at h
          · simp only [Option.some.injEq] at h
            exact Or.inl h.symm
          · split at h
            · simp only [Option.some.injEq] at h
              exact Or.inl h.symm
            · cases hf : s.findValidFoundationPile card with
              | none =>
                rw [hf] at h
                simp only [Option.some.injEq] at h
                exact Or.inl h.symm
              | some target =>
                rw [hf] at h
                simp only at h
                have hne := findValidFoundationPile_ne s card pileRef target pile hp htop hf
                unfold Solitaire.moveTopAt at h
                rw [hp] at h
                simp only at h
                cases hm : s.moveCardsAt pileRef target ((pile.length : Int) - 1) (-1) with
                | none => rw [hm] at h; cases h
                | some r =>
                  rw [hm] at h
                  simp only [Option.some.injEq] at h
                  exact Or.inr ⟨pileRef, target, _, r, hne, hm, h.symm⟩

theorem moveCardsAt_distinct_inv (s : Solitaire) (source target : PileRef)
    (startIndex endIndex : Int) (r : Bool × Solitaire) (hne : source ≠ target)
    (h : s.moveCardsAt source target startIndex endIndex = some r) :
    ∃ sourcePile targetPile out, s.pileAt source = some sourcePile ∧
      s.pileAt target = some targetPile ∧
      moveCards sourcePile targetPile startIndex endIndex = some out ∧
      r = (out.moved, (s.setPile source out.sourcePile).setPile target out.targetPile) := by
  unfold Solitaire.moveCardsAt at h
  cases hs : s.pileAt source with
  | none => rw [hs] at h; cases h
  | some sourcePile =>
    cases ht : s.pileAt target with
    | none => rw [hs, ht] at h; cases h
    | some targetPile =>
      rw [hs, ht] at h
      simp only [if_neg hne] at h
      cases hm : moveCards sourcePile targetPile startIndex endIndex with
      | none => rw [hm] at h; cases h
      | some out =>
        rw [hm] at h
        simp only [Option.some.injEq] at h
        exact ⟨sourcePile, targetPile, out, rfl, rfl, hm, h.symm⟩

/-! ### Fields the handlers leave alone -/

theorem pickTableau_frame (pos : Pointer) : ∀ (count i : Nat) (s s2 : Solitaire),
    Solitaire.pickTableau pos count i s = some s2 →
    s2.tableau = s.tableau ∧ s2.foundations = s.foundations ∧ s2.stock = s.stock ∧
      s2.waste = s.waste ∧ s2.gameWon = s.gameWon ∧ s2.lastDealTime = s.lastDealTime := by
  intro count
  induction count with
  | zero =>
    intro i s s2 h
    simp only [Solitaire.pickTableau, Option.some.injEq] at h
    subst h
    exact ⟨rfl, rfl, rfl, rfl, rfl, rfl⟩
  | succ n ih =>
    intro i s s2 h
    rw [Solitaire.pickTableau] at h
    have hrest : (if (!s.draggedCards.isEmpty) = true then some s
        else Solitaire.pickTableau pos n (i + 1) s) = some s2 →
        s2.tableau = s.tableau ∧ s2.foundations = s.foundations ∧ s2.stock = s.stock ∧
          s2.waste = s.waste ∧ s2.gameWon = s.gameWon ∧ s2.lastDealTime = s.lastDealTime := by
      intro h2
      by_cases he : (!s.draggedCards.isEmpty) = true
      · rw [if_pos he] at h2
        simp only [Option.some.injEq] at h2
        subst h2
        exact ⟨rfl, rfl, rfl, rfl, rfl, rfl⟩
      · rw [if_neg he] at h2
        exact ih (i + 1) s s2 h2
    by_cases hcol : pos.inColumn i = true
    · rw [if_pos hcol] at h
      cases hp : s.tableau[i]? with
      | none => rw [hp] at h; cases h
      | some pile =>
        rw [hp] at h
        simp only at h
        cases hc : cardAt pile (clampIndex pos.rowIndex pile.length) with
        | none => rw [hc] at h; cases h
        | some card =>
          rw [hc] at h
          simp only at h
          by_cases hhit : (card.isFaceUp &&
              pos.onTableauCard i (clampIndex pos.rowIndex pile.length).toNat) = true
          · rw [if_pos hhit] at h
            cases hcopy : copyCards pile (pile.length - (clampIndex pos.rowIndex pile.length).toNat)
                (clampIndex pos.rowIndex pile.length).toNat [] with
            | none => rw [hcopy] at h; cases h
            | some lifted =>
              rw [hcopy] at h
              simp only [Option.some.injEq] at h
              subst h
              exact ⟨rfl, rfl, rfl, rfl, rfl, rfl⟩
          · rw [if_neg hhit] at h
            exact hrest h
    · rw [if_neg hcol] at h
      exact hrest h

theorem pickWaste_frame (pos : Pointer) (s : Solitaire) :
    (s.pickWaste pos).tableau = s.tableau ∧ (s.pickWaste pos).foundations = s.foundations ∧
      (s.pickWaste pos).stock = s.stock ∧ (s.pickWaste pos).waste = s.waste ∧
      (s.pickWaste pos).gameWon = s.gameWon ∧
      (s.pickWaste pos).lastDealTime = s.lastDealTime := by
  unfold Solitaire.pickWaste
  split
  · split
    · exact ⟨rfl, rfl, rfl, rfl, rfl, rfl⟩
    · split <;> exact ⟨rfl, rfl, rfl, rfl, rfl, rfl⟩
  · exact ⟨rfl, rfl, rfl, rfl, rfl, rfl⟩

theorem clickStock_gameWon (s : Solitaire) (now : Int) : (s.clickStock now).gameWon = s.gameWon := by
  unfold Solitaire.clickStock
  split
  · rfl
  · split <;> rfl

theorem handleMouseDown_gameWon (s : Solitaire) (pos : Pointer) (now : Int) (s1 : Solitaire)
    (h : s.handleMouseDown pos now = some s1) : s1.gameWon = s.gameWon := by
  unfold Solitaire.handleMouseDown at h
  split at h
  · simp only [Option.some.injEq] at h
    rw [← h]
    exact clickStock_gameWon s now
  · cases hp : Solitaire.pickTableau pos 7 0 s with
    | none => rw [hp] at h; cases h
    | some s2 =>
      rw [hp] at h
      simp only [Option.some.injEq] at h
      rw [← h, (pickWaste_frame pos s2).2.2.2.2.1, (pickTableau_frame pos 7 0 s s2 hp).2.2.2.2.1]

theorem moveCardsAt_gameWon (s : Solitaire) (source target : PileRef)
    (startIndex endIndex : Int) (r : Bool × Solitaire) (hne : source ≠ target)
    (h : s.moveCardsAt source target startIndex endIndex = some r) :
    r.2.gameWon = s.gameWon := by
  obtain ⟨sp, tp, out, -, -, -, hr⟩ := moveCardsAt_distinct_inv s source target _ _ r hne h
  rw [hr]
  exact (setPile_drag _ _ _).2.2.2.1.trans (setPile_drag _ _ _).2.2.2.1

theorem handleMouseUp_gameWon (s : Solitaire) (pos : Pointer) (s1 : Solitaire)
    (h : s.handleMouseUp pos = some s1) : s1.gameWon = s.gameWon := by
  rcases handleMouseUp_shape s pos s1 h with rfl | rfl | ⟨a, b, i, r, hne, hm, rfl⟩
  · rfl
  · rfl
  · exact moveCardsAt_gameWon s a b i (-1) r hne hm

theorem handleDoubleClick_gameWon (s : Solitaire) (pos : Pointer) (now : Int) (s1 : Solitaire)
    (h : s.handleDoubleClick pos now = some s1) : s1.gameWon = s.gameWon := by
  rcases handleDoubleClick_shape s pos now s1 h with rfl | ⟨a, b, i, r, hne, hm, rfl⟩
  · rfl
  · exact moveCardsAt_gameWon s a b i (-1) r hne hm

theorem dealRow_gameWon (i : Nat) : ∀ (count j : Nat) (s s1 : Solitaire),
    Solitaire.dealRow i count j s = some s1 → s1.gameWon = s.gameWon := by
  intro count
  induction count with
  | zero =>
    intro j s s1 h
    simp only [Solitaire.dealRow, Option.some.injEq] at h
    rw [← h]
  | succ n ih =>
    intro j s s1 h
    rw [Solitaire.dealRow] at h
    cases hl : s.stock.getLast? with
    | none =>
      rw [hl] at h
      exact ih (j + 1) s s1 h
    | some top =>
      rw [hl] at h
      simp only at h
      cases ht : s.tableau[j]? with
      | none => rw [ht] at h; cases h
      | some pile =>
        rw [ht] at h
        simp only at h
        have h2 := ih (j + 1) _ s1 h
        exact h2

theorem dealRows_gameWon : ∀ (count i : Nat) (s s1 : Solitaire),
    Solitaire.dealRows count i s = some s1 → s1.gameWon = s.gameWon := by
  intro count
  induction count with
  | zero =>
    intro i s s1 h
    simp only [Solitaire.dealRows, Option.some.injEq] at h
    rw [← h]
  | succ n ih =>
    intro i s s1 h
    rw [Solitaire.dealRows] at h
    cases hrow : Solitaire.dealRow i (7 - i) i s with
    | none => rw [hrow] at h; cases h
    | some s2 =>
      rw [hrow] at h
      simp only at h
      rw [ih (i + 1) s2 s1 h, dealRow_gameWon i _ _ s s2 hrow]

theorem resetGame_gameWon (s : Solitaire) (env : Assets) (s1 : Solitaire)
    (h : s.resetGame env = some s1) : s1.gameWon = false := by
  unfold Solitaire.resetGame Solitaire.dealCards at h
  rw [dealRows_gameWon 7 0 _ s1 h]
  rfl

theorem allKingsOnTop_iff : ∀ (fs : List (List Card)),
    allKingsOnTop fs = true ↔
      ∀ f ∈ fs, ∃ top, f.getLast? = some top ∧ top.getValue = 13 := by
  intro fs
  induction fs with
  | nil => simp [allKingsOnTop]
  | cons f rest ih =>
    rw [allKingsOnTop]
    cases hf : f.getLast? with
    | none => simp [hf]
    | some top =>
      simp only
      by_cases hk : top.getValue = 13
      · simp [hk, ih, hf]
      · simp [hk, hf]

theorem winCheck_gameWon (s : Solitaire) :
    (s.gameWon = true → s.winCheck.gameWon = true) ∧
    (s.checkWin = true → s.winCheck.gameWon = true) ∧
    s.winCheck.foundations = s.foundations := by
  unfold Solitaire.winCheck
  refine ⟨?_, ?_, ?_⟩
  · intro h
    split
    · rfl
    · exact h
  · intro h
    rw [if_pos h]
  · split <;> rfl

/-- C16: `checkWin` is true exactly when every foundation is non-empty with a top card of
rank 13; `update` records a win in `gameWon`; once `gameWon` is true it stays true under
every pointer-down, pointer-up, double click and every `update` whose menu click does
not start a new game; and `resetGame` makes it false. -/
theorem win_detection (s : Solitaire) :
    (s.checkWin = true ↔
      ∀ f ∈ s.foundations, ∃ top, f.getLast? = some top ∧ top.getValue = 13) ∧
    (∀ f s1, s.update f = some s1 → s1.checkWin = true → s1.gameWon = true) ∧
    (s.gameWon = true →
      (∀ pos now s1, s.handleMouseDown pos now = some s1 → s1.gameWon = true) ∧
      (∀ pos s1, s.handleMouseUp pos = some s1 → s1.gameWon = true) ∧
      (∀ pos now s1, s.handleDoubleClick pos now = some s1 → s1.gameWon = true) ∧
      (∀ f s1, f.newGame = none → s.update f = some s1 → s1.gameWon = true)) ∧
    (∀ env s1, s.resetGame env = some s1 → s1.gameWon = false) := by
  refine ⟨allKingsOnTop_iff s.foundations, ?_, ?_, ?_⟩
  · intro f s1 h hwin
    unfold Solitaire.update at h
    simp only at h
    split at h
    · cases h
    · split at h
      · cases h
      · split at h
        · cases h
        · rename_i s3 _
          simp only [Option.some.injEq] at h
          subst h
          have hc : s3.checkWin = true := by
            unfold Solitaire.checkWin at hwin ⊢
            rw [(winCheck_gameWon s3).2.2] at hwin
            exact hwin
          exact (winCheck_gameWon s3).2.1 hc
  · intro hwon
    refine ⟨?_, ?_, ?_, ?_⟩
    · intro pos now s1 h
      rw [handleMouseDown_gameWon s pos now s1 h, hwon]
    · intro pos s1 h
      rw [handleMouseUp_gameWon s pos s1 h, hwon]
    · intro pos now s1 h
      rw [handleDoubleClick_gameWon s pos now s1 h, hwon]
    · intro f s1 hmenu h
      unfold Solitaire.update at h
      rw [hmenu] at h
      simp only at h
      have hrel : ∀ s2, (match f.released with
          | some pos => s.handleMouseUp pos
          | none => some s) = some s2 → s2.gameWon = true := by
        intro s2 h2
        cases hr : f.released with
        | none =>
          rw [hr] at h2
          simp only [Option.some.injEq] at h2
          rw [← h2, hwon]
        | some pos =>
          rw [hr] at h2
          rw [handleMouseUp_gameWon s pos s2 h2, hwon]
      cases h2 : (match f.released with
          | some pos => s.handleMouseUp pos
          | none => some s) with
      | none => rw [h2] at h; cases h
      | some s2 =>
        rw [h2] at h
        simp only at h
        have hs2 := hrel s2 h2
        cases hdc : f.doubleClick with
        | none =>
          rw [hdc] at h
          simp only [Option.some.injEq] at h
          rw [← h]
          exact (winCheck_gameWon s2).1 hs2
        | some click =>
          rw [hdc] at h
          simp only at h
          cases h3 : s2.handleDoubleClick click.1 click.2 with
          | none => rw [h3] at h; cases h
          | some s3 =>
            rw [h3] at h
            simp only [Option.some.injEq] at h
            rw [← h]
            apply (winCheck_gameWon s3).1
            rw [handleDoubleClick_gameWon s2 click.1 click.2 s3 h3, hs2]
  · intro env s1 h
    exact resetGame_gameWon s env s1 h

theorem win_detection_witness :
    solved.checkWin = true ∧ solved.gameWon = false ∧ wonGame.gameWon = true ∧
    ((wonGame.handleMouseDown onStock 0).getD blank).gameWon = true ∧
    ((wonGame.update idleFrame).getD blank).gameWon = true ∧
    ((wonGame.resetGame plainAssets).getD wonGame).gameWon = false :=
  ⟨by decide, by decide, by decide,
    ((win_detection wonGame).2.2.1 (by decide)).1 onStock 0 _ (by decide),
    ((win_detection wonGame).2.2.1 (by decide)).2.2.2 idleFrame _ rfl (by decide),
    (win_detection wonGame).2.2.2 plainAssets _ (by decide)⟩


/-! ### Double click -/

/-- C15, amended: for a double click that resolves to a pile, nothing changes when the
pile is empty or its top card is face-down; on the waste nothing changes while less than
500 ms have passed since the last deal from the stock (`lastDealTime`); and once 500 ms
or more have passed since the last deal, a face-up top waste card that some foundation
accepts is moved onto the foundation `findValidFoundationPile` returns (the first
accepting one), every other pile being unchanged. -/
theorem handleDoubleClick_waste (s : Solitaire) (pos : Pointer) (now : Int) (r : PileRef)
    (pile : List Card) (hres : s.getPileAtPos pos = some (some r))
    (hp : s.pileAt r = some pile) :
    (pile = [] → s.handleDoubleClick pos now = some s) ∧
    (∀ top, pile.getLast? = some top → top.faceUp = false →
      s.handleDoubleClick pos now = some s) ∧
    (r = PileRef.waste → now - s.lastDealTime < 500 → s.handleDoubleClick pos now = some s) ∧
    (r = PileRef.waste → 500 ≤ now - s.lastDealTime →
      ∀ below top i f, pile = below ++ [top] → top.faceUp = true →
        s.findValidFoundationPile top = some (PileRef.foundation i) →
        s.foundations[i]? = some f →
        ∃ s1, s.handleDoubleClick pos now = some s1 ∧
          s1.pileAt (PileRef.foundation i) = some (f ++ [top]) ∧
          s1.pileAt PileRef.waste = some (flipBack below) ∧
          ∀ r2, r2 ≠ PileRef.waste → r2 ≠ PileRef.foundation i → s1.pileAt r2 = s.pileAt r2) := by
  refine ⟨?_, ?_, ?_, ?_⟩
  · intro hnil
    unfold Solitaire.handleDoubleClick
    simp [hres, hp, hnil]
  · intro top htop hdown
    unfold Solitaire.handleDoubleClick
    simp only [hres, hp, htop]
    split
    · rfl
    · simp [Card.isFaceUp, hdown]
  · intro hw hlt
    unfold Solitaire.handleDoubleClick
    simp only [hres, hp]
    cases htop : pile.getLast? with
    | none => rfl
    | some top =>
      simp only
      rw [if_pos ⟨hw, hlt⟩]
  · intro hw hge below top i f hpile hup hfind hf
    subst hw
    have htop : pile.getLast? = some top := by rw [hpile]; simp
    have hlen : pile.length = below.length + 1 := by rw [hpile]; simp
    obtain ⟨s1, hmove, h1, h2, h3, -⟩ :=
      moveCardsAt_default s PileRef.waste (PileRef.foundation i) pile f below.length
        (by simp) hp (by simpa [Solitaire.pileAt] using hf) (by omega)
    refine ⟨s1, ?_, ?_, ?_, h3⟩
    · unfold Solitaire.handleDoubleClick
      simp only [hres, hp, htop]
      rw [if_neg (by intro hc; omega)]
      simp only [Card.isFaceUp, hup, Bool.not_true, Bool.false_eq_true, if_false, hfind]
      unfold Solitaire.moveTopAt
      rw [hp]
      simp only
      have hidx : (pile.length : Int) - 1 = (below.length : Int) := by
        rw [hlen]; push_cast; ring
      rw [hidx, hmove]
    · rw [h1, hpile]
      simp
    · rw [h2, hpile]
      simp

theorem handleDoubleClick_waste_witness :
    aceOnWaste.handleDoubleClick onWaste 10200 = some aceOnWaste ∧
    ∃ s1, aceOnWaste.handleDoubleClick onWaste 10500 = some s1 ∧
      s1.pileAt (PileRef.foundation 0) = some ([] ++ [aceOfHearts]) ∧
      s1.pileAt PileRef.waste = some (flipBack []) ∧
      ∀ r2, r2 ≠ PileRef.waste → r2 ≠ PileRef.foundation 0 →
        s1.pileAt r2 = aceOnWaste.pileAt r2 :=
  ⟨(handleDoubleClick_waste aceOnWaste onWaste 10200 PileRef.waste [aceOfHearts]
      (by decide) (by decide)).2.2.1 rfl (by decide),
    (handleDoubleClick_waste aceOnWaste onWaste 10500 PileRef.waste [aceOfHearts]
      (by decide) (by decide)).2.2.2 rfl (by decide) [] aceOfHearts 0 [] (by decide)
      (by decide) (by decide) (by decide)⟩

/-- C15 as stated fails when the last dealt card has left the waste: the ace of hearts is
dealt to the waste at time 0, the queen of hearts at 10000 ms, and the queen is dragged
to the tableau; a double click on the waste at 10200 ms finds the ace face-up on top,
placed 10200 ms before, with the empty foundation 0 accepting it, and changes nothing. -/
theorem old_waste_card_blocked_by_later_deal :
    ((riggedGame.bind fun s => s.run [Event.pointerDown overStock 0]).map fun s =>
      (s.waste, s.lastDealTime)) = some ([aceOfHearts], 0) ∧
    aceOnWaste.waste = [aceOfHearts] ∧
    aceOnWaste.lastDealTime = 10000 ∧
    aceOnWaste.getPileAtPos onWaste = some (some PileRef.waste) ∧
    aceOfHearts.isFaceUp = true ∧
    aceOnWaste.findValidFoundationPile aceOfHearts = some (PileRef.foundation 0) ∧
    canMoveToFoundation aceOfHearts [] = true ∧
    aceOnWaste.handleDoubleClick onWaste 10200 = some aceOnWaste := by
  decide


/-! ### A face-down card above a face-up card -/

theorem riggedDeck_perm : riggedDeck.Perm plainDeck := by decide

theorem riggedAssets_shuffle_perm (deck : List Card) : (riggedAssets.shuffle deck).Perm deck := by
  show (if deck = plainDeck then riggedDeck else deck).Perm deck
  by_cases h : deck = plainDeck
  · rw [if_pos h, h]
    exact riggedDeck_perm
  · rw [if_neg h]

theorem riggedGame_reachable (s : Solitaire) (h : riggedGame = some s) : Reachable s :=
  Reachable.newGame riggedAssets blank s (fun _ _ => rfl) riggedAssets_shuffle_perm h

/-- C11 at a failing input: the session reached from a new game by `queenThroughStock`
has tableau pile 2 = jack of spades and five of spades face-down, king of spades
face-up, queen of diamonds face-down: a face-down card lies above a face-up card. -/
theorem face_down_card_above_face_up :
    ∃ s, Reachable s ∧
      s.tableau[2]? = some [⟨Suit.spades, 11, false⟩, ⟨Suit.spades, 5, false⟩,
        ⟨Suit.spades, 13, true⟩, ⟨Suit.diamonds, 12, false⟩] ∧
      s.tableau.all faceDownThenUp = false := by
  have h : ((riggedGame.bind fun s => s.run queenThroughStock).map fun s =>
      (s.tableau[2]?, s.tableau.all faceDownThenUp)) =
        some (some [⟨Suit.spades, 11, false⟩, ⟨Suit.spades, 5, false⟩,
          ⟨Suit.spades, 13, true⟩, ⟨Suit.diamonds, 12, false⟩], false) := by
    decide
  cases hg : riggedGame with
  | none => rw [hg] at h; cases h
  | some s0 =>
    rw [hg] at h
    simp only [Option.some_bind] at h
    cases hr : s0.run queenThroughStock with
    | none => rw [hr] at h; cases h
    | some s1 =>
      rw [hr] at h
      simp only [Option.map_some', Option.some.injEq, Prod.mk.injEq] at h
      exact ⟨s1, reachable_run _ s0 s1 (riggedGame_reachable s0 hg) hr, h.1, h.2⟩

/-! ### A pointer-down in the column of an empty tableau pile -/

/-- C18 at a failing input: after the ace of spades, alone on tableau pile 0, has gone to
a foundation by a double click, pile 0 is empty; a pointer-down inside column 0 and
outside the stock clamps the clicked index to `0 - 1 = -1` and reads `tableau[0][-1]`,
outside the empty vector. -/
theorem pointer_down_on_empty_column :
    (riggedGame.map fun s => s.tableau[0]?) = some (some [⟨Suit.spades, 1, true⟩]) ∧
    emptyFirstPile.tableau[0]? = some [] ∧
    emptyFirstPile.foundations[0]? = some [⟨Suit.spades, 1, true⟩] ∧
    onFirstTableauCard.inStockRect = false ∧
    onFirstTableauCard.inColumn 0 = true ∧
    clampIndex onFirstTableauCard.rowIndex 0 = -1 ∧
    cardAt [] (-1) = none ∧
    emptyFirstPile.handleMouseDown onFirstTableauCard 700 = none := by
  decide


/-! ### Conservation of the deck -/

theorem idents_append (a b : List Card) : idents (a ++ b) = idents a + idents b := by
  simp [idents, Multiset.coe_add]

theorem idents_nil : idents [] = 0 := rfl

theorem idents_flatten_set : ∀ (l : List (List Card)) (i : Nat) (old pile : List Card),
    l[i]? = some old →
    idents (l.set i pile).flatten + idents old = idents l.flatten + idents pile := by
  intro l
  induction l with
  | nil => intro i old pile h; simp at h
  | cons x xs ih =>
    intro i old pile h
    cases i with
    | zero =>
      simp only [List.getElem?_cons_zero, Option.some.injEq] at h
      subst h
      simp only [List.set_cons_zero, List.flatten_cons, idents_append]
      abel
    | succ k =>
      simp only [List.getElem?_cons_succ] at h
      simp only [List.set_cons_succ, List.flatten_cons, idents_append]
      rw [add_assoc, ih k old pile h]
      abel

theorem idents_allCards (s : Solitaire) :
    idents s.allCards =
      idents s.tableau.flatten + idents s.foundations.flatten + idents s.stock + idents s.waste := by
  simp only [Solitaire.allCards, idents_append]

theorem idents_setPile (s : Solitaire) (r : PileRef) (old pile : List Card)
    (h : s.pileAt r = some old) :
    idents (s.setPile r pile).allCards + idents old = idents s.allCards + idents pile := by
  rw [idents_allCards, idents_allCards]
  cases r with
  | tableau i =>
    have hk := idents_flatten_set s.tableau i old pile h
    simp only [Solitaire.setPile]
    calc idents (s.tableau.set i pile).flatten + idents s.foundations.flatten + idents s.stock +
          idents s.waste + idents old
        = (idents (s.tableau.set i pile).flatten + idents old) + idents s.foundations.flatten +
          idents s.stock + idents s.waste := by abel
      _ = _ := by rw [hk]; abel
  | foundation i =>
    have hk := idents_flatten_set s.foundations i old pile h
    simp only [Solitaire.setPile]
    calc idents s.tableau.flatten + idents (s.foundations.set i pile).flatten + idents s.stock +
          idents s.waste + idents old
        = idents s.tableau.flatten + (idents (s.foundations.set i pile).flatten + idents old) +
          idents s.stock + idents s.waste := by abel
      _ = _ := by rw [hk]; abel
  | stock =>
    simp only [Solitaire.pileAt, Option.some.injEq] at h
    subst h
    simp only [Solitaire.setPile]
    abel
  | waste =>
    simp only [Solitaire.pileAt, Option.some.injEq] at h
    subst h
    simp only [Solitaire.setPile]
    abel

theorem moveCardsAt_idents (s : Solitaire) (source target : PileRef)
    (startIndex endIndex : Int) (r : Bool × Solitaire) (hne : source ≠ target)
    (h : s.moveCardsAt source target startIndex endIndex = some r) :
    idents r.2.allCards = idents s.allCards := by
  obtain ⟨sp, tp, out, hs, ht, hmove, hr⟩ :=
    moveCardsAt_distinct_inv s source target _ _ r hne h
  rw [hr]
  simp only
  have h1 := idents_setPile s source sp out.sourcePile hs
  have ht2 : (s.setPile source out.sourcePile).pileAt target = some tp := by
    rw [pileAt_setPile_ne _ _ _ _ hne, ht]
  have h2 := idents_setPile (s.setPile source out.sourcePile) target tp out.targetPile ht2
  have hc : idents out.sourcePile + idents out.targetPile = idents sp + idents tp := by
    have hp := (moveCards_conserves sp tp startIndex endIndex out hmove).1
    rw [← idents_append, ← idents_append]
    exact Multiset.coe_eq_coe.2 hp
  have h3 : idents ((s.setPile source out.sourcePile).setPile target out.targetPile).allCards +
      (idents tp + idents sp) = idents s.allCards + (idents tp + idents sp) := by
    calc idents ((s.setPile source out.sourcePile).setPile target out.targetPile).allCards +
          (idents tp + idents sp)
        = (idents ((s.setPile source out.sourcePile).setPile target out.targetPile).allCards +
            idents tp) + idents sp := by abel
      _ = (idents (s.setPile source out.sourcePile).allCards + idents sp) +
            idents out.targetPile := by rw [h2]; abel
      _ = idents s.allCards + (idents out.sourcePile + idents out.targetPile) := by
          rw [h1]; abel
      _ = _ := by rw [hc]; abel
  exact add_right_cancel h3

theorem idents_map_flip (l : List Card) : idents (l.map Card.flip) = idents l := by
  unfold idents
  congr 1
  rw [List.map_map]
  apply List.map_congr_left
  intro c _
  rfl

theorem idents_reverse (l : List Card) : idents l.reverse = idents l := by
  unfold idents
  rw [List.map_reverse]
  exact Multiset.coe_eq_coe.2 (List.reverse_perm _)

theorem idents_singleton_flip (c : Card) : idents [c.flip] = idents [c] := rfl

theorem clickStock_idents (s : Solitaire) (now : Int) :
    idents (s.clickStock now).allCards = idents s.allCards := by
  rcases List.eq_nil_or_concat s.stock with hnil | ⟨rest, top, hst⟩
  · by_cases hw : s.waste = []
    · have hsame : s.clickStock now = s := by
        simp [Solitaire.clickStock, hnil, hw]
      rw [hsame]
    · rw [clickStock_restore s now hnil hw, idents_allCards, idents_allCards]
      simp only [hnil, idents_map_flip, idents_reverse, idents_nil]
      abel
  · rw [List.concat_eq_append] at hst
    rw [clickStock_deal s now rest top hst, idents_allCards, idents_allCards]
    simp only [hst, idents_append, idents_singleton_flip]
    abel

theorem allCards_congr (s s1 : Solitaire) (h1 : s1.tableau = s.tableau)
    (h2 : s1.foundations = s.foundations) (h3 : s1.stock = s.stock) (h4 : s1.waste = s.waste) :
    s1.allCards = s.allCards := by
  unfold Solitaire.allCards
  rw [h1, h2, h3, h4]

theorem handleMouseDown_idents (s : Solitaire) (pos : Pointer) (now : Int) (s1 : Solitaire)
    (h : s.handleMouseDown pos now = some s1) : idents s1.allCards = idents s.allCards := by
  unfold Solitaire.handleMouseDown at h
  by_cases hstock : pos.inStockRect = true
  · rw [if_pos hstock] at h
    simp only [Option.some.injEq] at h
    rw [← h]
    exact clickStock_idents s now
  · rw [if_neg hstock] at h
    cases hp : Solitaire.pickTableau pos 7 0 s with
    | none => rw [hp] at h; cases h
    | some s2 =>
      rw [hp] at h
      simp only [Option.some.injEq] at h
      obtain ⟨a1, a2, a3, a4, -⟩ := pickTableau_frame pos 7 0 s s2 hp
      obtain ⟨b1, b2, b3, b4, -⟩ := pickWaste_frame pos s2
      rw [← h, allCards_congr s (s2.pickWaste pos) (b1.trans a1) (b2.trans a2) (b3.trans a3)
        (b4.trans a4)]

theorem handleMouseUp_idents (s : Solitaire) (pos : Pointer) (s1 : Solitaire)
    (h : s.handleMouseUp pos = some s1) : idents s1.allCards = idents s.allCards := by
  rcases handleMouseUp_shape s pos s1 h with rfl | rfl | ⟨a, b, i, r, hne, hm, rfl⟩
  · rfl
  · rfl
  · exact moveCardsAt_idents s a b i (-1) r hne hm

theorem handleDoubleClick_idents (s : Solitaire) (pos : Pointer) (now : Int) (s1 : Solitaire)
    (h : s.handleDoubleClick pos now = some s1) : idents s1.allCards = idents s.allCards := by
  rcases handleDoubleClick_shape s pos now s1 h with rfl | ⟨a, b, i, r, hne, hm, rfl⟩
  · rfl
  · exact moveCardsAt_idents s a b i (-1) r hne hm

theorem dealRow_idents (i : Nat) : ∀ (count j : Nat) (s s1 : Solitaire),
    Solitaire.dealRow i count j s = some s1 → idents s1.allCards = idents s.allCards := by
  intro count
  induction count with
  | zero =>
    intro j s s1 h
    simp only [Solitaire.dealRow, Option.some.injEq] at h
    rw [← h]
  | succ n ih =>
    intro j s s1 h
    rw [Solitaire.dealRow] at h
    cases hl : s.stock.getLast? with
    | none =>
      rw [hl] at h
      exact ih (j + 1) s s1 h
    | some top =>
      rw [hl] at h
      simp only at h
      cases ht : s.tableau[j]? with
      | none => rw [ht] at h; cases h
      | some pile =>
        rw [ht] at h
        simp only at h
        have h2 := ih (j + 1) _ s1 h
        rw [h2, idents_allCards, idents_allCards]
        simp only
        have hstock : s.stock = s.stock.dropLast ++ [top] := by
          rcases List.eq_nil_or_concat s.stock with hnil | ⟨rest, c, hst⟩
          · rw [hnil] at hl; simp at hl
          · rw [List.concat_eq_append] at hst
            rw [hst] at hl ⊢
            simp at hl
            subst hl
            simp
        have hset := idents_flatten_set s.tableau j pile
          (pile ++ [if j = i then top.flip else top]) ht
        have hcard : idents [if j = i then top.flip else top] = idents [top] := by
          split <;> rfl
        rw [idents_append, hcard] at hset
        have hset2 : idents (s.tableau.set j (pile ++ [if j = i then top.flip else top])).flatten =
            idents s.tableau.flatten + idents [top] := by
          apply add_right_cancel (b := idents pile)
          rw [hset]
          abel
        rw [hset2]
        conv_rhs => rw [hstock, idents_append]
        abel

theorem dealRows_idents : ∀ (count i : Nat) (s s1 : Solitaire),
    Solitaire.dealRows count i s = some s1 → idents s1.allCards = idents s.allCards := by
  intro count
  induction count with
  | zero =>
    intro i s s1 h
    simp only [Solitaire.dealRows, Option.some.injEq] at h
    rw [← h]
  | succ n ih =>
    intro i s s1 h
    rw [Solitaire.dealRows] at h
    cases hrow : Solitaire.dealRow i (7 - i) i s with
    | none => rw [hrow] at h; cases h
    | some s2 =>
      rw [hrow] at h
      simp only at h
      rw [ih (i + 1) s2 s1 h, dealRow_idents i _ _ s s2 hrow]

theorem resetGame_idents (s0 s : Solitaire) (env : Assets)
    (havail : ∀ suit value, env.available suit value = true)
    (hperm : ∀ deck, (env.shuffle deck).Perm deck)
    (h : s0.resetGame env = some s) : idents s.allCards = idents plainDeck := by
  unfold Solitaire.resetGame Solitaire.dealCards at h
  rw [dealRows_idents 7 0 _ s h, idents_allCards]
  simp only [Solitaire.loadCards, List.replicate, List.flatten_cons, List.flatten_nil,
    List.append_nil, idents_nil, zero_add, add_zero]
  unfold idents
  apply Multiset.coe_eq_coe.2
  apply List.Perm.map
  rw [loadSuits_all_available env havail]
  exact hperm _

theorem reachable_idents (s : Solitaire) (h : Reachable s) :
    idents s.allCards = idents plainDeck := by
  induction h with
  | newGame env s0 s havail hperm hreset => exact resetGame_idents s0 s env havail hperm hreset
  | event s s1 e _ hstep ih =>
    rw [← ih]
    cases e with
    | pointerDown pos now => exact handleMouseDown_idents s pos now s1 hstep
    | pointerUp pos => exact handleMouseUp_idents s pos s1 hstep
    | doubleClick pos now => exact handleDoubleClick_idents s pos now s1 hstep

theorem deckIdents_nodup : deckIdents.Nodup := by decide

theorem deckIdents_length : deckIdents.length = 52 := by decide

/-- C17: in every session reachable from a new game dealt from the full deck, the
tableau piles, the foundations, the stock and the waste together hold exactly 52 cards,
and their (suit, rank) pairs are a rearrangement of the 52 pairs of the deck: every
pair of the deck occurs, and none occurs twice. -/
theorem deck_conserved (s : Solitaire) (h : Reachable s) :
    (s.allCards.map Card.ident).Perm deckIdents ∧
    s.allCards.length = 52 ∧
    (s.allCards.map Card.ident).Nodup ∧
    ∀ suit ∈ suits, ∀ value ∈ values, (suit, value) ∈ s.allCards.map Card.ident := by
  have hperm : (s.allCards.map Card.ident).Perm deckIdents :=
    Multiset.coe_eq_coe.1 (reachable_idents s h)
  refine ⟨hperm, ?_, ?_, ?_⟩
  · have hl := hperm.length_eq
    rw [List.length_map, deckIdents_length] at hl
    exact hl
  · exact hperm.nodup_iff.2 deckIdents_nodup
  · intro suit hs value hv
    have hdeck : ∀ suit ∈ suits, ∀ value ∈ values, (suit, value) ∈ deckIdents := by
      decide
    exact hperm.mem_iff.2 (hdeck suit hs value hv)

theorem deck_conserved_witness :
    ∃ s, (riggedGame.bind fun s0 => s0.run queenThroughStock) = some s ∧
      (s.allCards.map Card.ident).Perm deckIdents ∧
      s.allCards.length = 52 ∧
      (s.allCards.map Card.ident).Nodup ∧
      ∀ suit ∈ suits, ∀ value ∈ values, (suit, value) ∈ s.allCards.map Card.ident := by
  cases hg : riggedGame with
  | none => exact absurd hg (by decide)
  | some s0 =>
    cases hr : s0.run queenThroughStock with
    | none =>
      have h : (riggedGame.bind fun s => s.run queenThroughStock).isSome = true := by decide
      rw [hg] at h
      simp only [Option.some_bind] at h
      rw [hr] at h
      cases h
    | some s1 =>
      exact ⟨s1, by simp [hr],
        deck_conserved s1 (reachable_run _ s0 s1 (riggedGame_reachable s0 hg) hr)⟩


/-! ### New game -/

theorem dealRow_total (i : Nat) : ∀ (count j : Nat) (s : Solitaire),
    s.tableau.length = 7 → j + count ≤ 7 →
    ∃ s1, Solitaire.dealRow i count j s = some s1 ∧ s1.tableau.length = 7 ∧
      s1.waste = s.waste ∧ s1.foundations = s.foundations ∧
      s1.draggedCards = s.draggedCards ∧ s1.draggedSourcePile = s.draggedSourcePile ∧
      s1.gameWon = s.gameWon := by
  intro count
  induction count with
  | zero =>
    intro j s hlen _
    exact ⟨s, rfl, hlen, rfl, rfl, rfl, rfl, rfl⟩
  | succ n ih =>
    intro j s hlen hj
    rw [Solitaire.dealRow]
    cases hl : s.stock.getLast? with
    | none => exact ih (j + 1) s hlen (by omega)
    | some top =>
      simp only
      have hjlt : j < s.tableau.length := by omega
      rw [List.getElem?_eq_getElem hjlt]
      simp only
      obtain ⟨s1, h1, h2, h3, h4, h5, h6, h7⟩ := ih (j + 1)
        { s with
          stock := s.stock.dropLast
          tableau := s.tableau.set j (s.tableau[j] ++ [if j = i then top.flip else top]) }
        (by simpa using hlen) (by omega)
      exact ⟨s1, h1, h2, h3, h4, h5, h6, h7⟩

theorem dealRows_total : ∀ (count i : Nat) (s : Solitaire),
    s.tableau.length = 7 → i + count ≤ 7 →
    ∃ s1, Solitaire.dealRows count i s = some s1 ∧ s1.tableau.length = 7 ∧
      s1.waste = s.waste ∧ s1.foundations = s.foundations ∧
      s1.draggedCards = s.draggedCards ∧ s1.draggedSourcePile = s.draggedSourcePile ∧
      s1.gameWon = s.gameWon := by
  intro count
  induction count with
  | zero =>
    intro i s hlen _
    exact ⟨s, rfl, hlen, rfl, rfl, rfl, rfl, rfl⟩
  | succ n ih =>
    intro i s hlen hi
    rw [Solitaire.dealRows]
    obtain ⟨s1, h1, h2, h3, h4, h5, h6, h7⟩ := dealRow_total i (7 - i) i s hlen (by omega)
    rw [h1]
    simp only
    obtain ⟨s2, g1, g2, g3, g4, g5, g6, g7⟩ := ih (i + 1) s1 h2 (by omega)
    exact ⟨s2, g1, g2, g3.trans h3, g4.trans h4, g5.trans h5, g6.trans h6, g7.trans h7⟩

theorem dealRow_clock (i : Nat) (a b : Int) : ∀ (count j : Nat) (s : Solitaire),
    Solitaire.dealRow i count j { s with draggedStartIndex := a, lastDealTime := b } =
      (Solitaire.dealRow i count j s).map fun r =>
        { r with draggedStartIndex := a, lastDealTime := b } := by
  intro count
  induction count with
  | zero => intro j s; rfl
  | succ n ih =>
    intro j s
    rw [Solitaire.dealRow, Solitaire.dealRow]
    simp only
    cases hl : s.stock.getLast? with
    | none => exact ih (j + 1) s
    | some top =>
      simp only
      cases ht : s.tableau[j]? with
      | none => rfl
      | some pile =>
        simp only
        exact ih (j + 1)
          { s with
            stock := s.stock.dropLast
            tableau := s.tableau.set j (pile ++ [if j = i then top.flip else top]) }

theorem dealRows_clock (a b : Int) : ∀ (count i : Nat) (s : Solitaire),
    Solitaire.dealRows count i { s with draggedStartIndex := a, lastDealTime := b } =
      (Solitaire.dealRows count i s).map fun r =>
        { r with draggedStartIndex := a, lastDealTime := b } := by
  intro count
  induction count with
  | zero => intro i s; rfl
  | succ n ih =>
    intro i s
    rw [Solitaire.dealRows, Solitaire.dealRows, dealRow_clock]
    cases hrow : Solitaire.dealRow i (7 - i) i s with
    | none => rfl
    | some s1 =>
      simp only [Option.map_some']
      exact ih (i + 1) s1

/-- C21: from every state, `resetGame` returns a state with no lifted cards and no drag
source, `gameWon` false, exactly 7 tableau piles, 4 foundation piles that are all empty
and an empty waste; and the result does not depend on the previous piles: it is the
result of `resetGame` on the session `blank`, up to the two fields `resetGame` never
writes (`draggedStartIndex` and `lastDealTime`). -/
theorem resetGame_fresh (env : Assets) (s : Solitaire) :
    ∃ s1, s.resetGame env = some s1 ∧
      s1.draggedCards = [] ∧ s1.draggedSourcePile = none ∧ s1.gameWon = false ∧
      s1.tableau.length = 7 ∧ s1.foundations.length = 4 ∧
      s1.foundations = [[], [], [], []] ∧ s1.waste = [] ∧
      s.resetGame env = (blank.resetGame env).map fun r =>
        { r with draggedStartIndex := s.draggedStartIndex, lastDealTime := s.lastDealTime } := by
  have hind : s.resetGame env = (blank.resetGame env).map fun r =>
      { r with draggedStartIndex := s.draggedStartIndex, lastDealTime := s.lastDealTime } := by
    unfold Solitaire.resetGame Solitaire.dealCards
    rw [← dealRows_clock]
    rfl
  unfold Solitaire.resetGame Solitaire.dealCards at hind ⊢
  obtain ⟨s1, h1, h2, h3, h4, h5, h6, h7⟩ := dealRows_total 7 0
    (Solitaire.loadCards env
      { s with
        tableau := List.replicate 7 []
        foundations := List.replicate 4 []
        stock := []
        waste := []
        draggedCards := []
        draggedSourcePile := none
        gameWon := false }) rfl (by omega)
  refine ⟨s1, h1, h5, h6, h7, h2, ?_, h4, h3, hind⟩
  rw [h4]
  rfl

/-! ### The calls of `moveCards` made by the handlers -/

theorem mouseUpCall_some (s : Solitaire) (pos : Pointer) (a b : PileRef) (i : Int)
    (h : s.mouseUpCall pos = some (a, b, i)) :
    a ≠ b ∧ s.draggedSourcePile = some a ∧ (∃ tp, s.pileAt b = some tp) ∧
    ((∃ sp, s.pileAt a = some sp ∧ i = (sp.length : Int) - 1) ∨
      (a ≠ PileRef.waste ∧ i = s.draggedStartIndex)) ∧
    s.handleMouseUp pos = (s.moveCardsAt a b i (-1)).map fun r => r.2.clearDrag := by
  unfold Solitaire.mouseUpCall at h
  unfold Solitaire.handleMouseUp
  cases hd : s.draggedCards.head? with
  | none => rw [hd] at h; cases h
  | some first =>
    rw [hd] at h
    simp only at h ⊢
    cases hg : s.getPileAtPos pos with
    | none => rw [hg] at h; cases h
    | some found =>
      rw [hg] at h
      cases found with
      | none => cases h
      | some target =>
        simp only at h ⊢
        by_cases hsame : some target = s.draggedSourcePile
        · rw [if_pos hsame] at h; cases h
        · rw [if_neg hsame] at h
          rw [if_neg hsame]
          cases htp : s.pileAt target with
          | none => rw [htp] at h; cases h
          | some targetPile =>
            rw [htp] at h
            simp only at h ⊢
            cases hsrc : s.draggedSourcePile with
            | none =>
              rw [hsrc] at h
              simp only at h
              by_cases hc1 : canMoveToTableau first targetPile = true
              · rw [if_pos hc1] at h; cases h
              · rw [if_neg hc1] at h
                by_cases hc2 : (s.draggedCards.length == 1 &&
                    canMoveToFoundation first targetPile) = true
                · rw [if_pos hc2] at h; cases h
                · rw [if_neg hc2] at h; cases h
            | some source =>
              rw [hsrc] at h hsame
              have hne : source ≠ target := by
                intro heq
                exact hsame (by rw [heq])
              simp only at h ⊢
              have top : ∀ (call : Option (PileRef × PileRef × Int)),
                  (match s.pileAt source with
                    | none => none
                    | some sourcePile => some (source, target, (sourcePile.length : Int) - 1)) =
                    some (a, b, i) →
                  a ≠ b ∧ some source = some a ∧ (∃ tp, s.pileAt b = some tp) ∧
                    ((∃ sp, s.pileAt a = some sp ∧ i = (sp.length : Int) - 1) ∨
                      (a ≠ PileRef.waste ∧ i = s.draggedStartIndex)) ∧
                    (match s.moveTopAt source target with
                      | none => none
                      | some r => some r.2.clearDrag) =
                      (s.moveCardsAt a b i (-1)).map fun r => r.2.clearDrag := by
                intro _ h2
                unfold Solitaire.moveTopAt
                cases hsp : s.pileAt source with
                | none => rw [hsp] at h2; cases h2
                | some sourcePile =>
                  rw [hsp] at h2
                  simp only [Option.some.injEq, Prod.mk.injEq] at h2
                  obtain ⟨rfl, rfl, rfl⟩ := h2
                  refine ⟨hne, rfl, ⟨targetPile, htp⟩, Or.inl ⟨sourcePile, hsp, rfl⟩, ?_⟩
                  simp only
                  cases s.moveCardsAt source target ((sourcePile.length : Int) - 1) (-1) <;> rfl
              by_cases hc1 : canMoveToTableau first targetPile = true
              · rw [if_pos hc1] at h
                rw [if_pos hc1]
                by_cases hw : source = PileRef.waste
                · rw [if_pos hw] at h
                  rw [if_pos hw]
                  exact top none h
                · rw [if_neg hw] at h
                  rw [if_neg hw]
                  simp only [Option.some.injEq, Prod.mk.injEq] at h
                  obtain ⟨rfl, rfl, rfl⟩ := h
                  refine ⟨hne, rfl, ⟨targetPile, htp⟩, Or.inr ⟨hw, rfl⟩, ?_⟩
                  cases s.moveCardsAt source target s.draggedStartIndex (-1) <;> rfl
              · rw [if_neg hc1] at h
                rw [if_neg hc1]
                by_cases hc2 : (s.draggedCards.length == 1 &&
                    canMoveToFoundation first targetPile) = true
                · rw [if_pos hc2] at h
                  rw [if_pos hc2]
                  exact top none h
                · rw [if_neg hc2] at h; cases h

theorem doubleClickCall_some (s : Solitaire) (pos : Pointer) (now : Int) (a b : PileRef)
    (i : Int) (h : s.doubleClickCall pos now = some (a, b, i)) :
    a ≠ b ∧ (∃ tp, s.pileAt b = some tp) ∧
    (∃ sp, s.pileAt a = some sp ∧ sp ≠ [] ∧ i = (sp.length : Int) - 1) ∧
    s.handleDoubleClick pos now = (s.moveCardsAt a b i (-1)).map fun r => r.2 := by
  unfold Solitaire.doubleClickCall at h
  unfold Solitaire.handleDoubleClick
  cases hg : s.getPileAtPos pos with
  | none => rw [hg] at h; cases h
  | some found =>
    rw [hg] at h
    cases found with
    | none => cases h
    | some pileRef =>
      simp only at h ⊢
      cases hp : s.pileAt pileRef with
      | none => rw [hp] at h; cases h
      | some pile =>
        rw [hp] at h
        simp only at h ⊢
        cases htop : pile.getLast? with
        | none => rw [htop] at h; cases h
        | some card =>
          rw [htop] at h
          simp only at h ⊢
          by_cases hc1 : pileRef = PileRef.waste ∧ now - s.lastDealTime < 500
          · rw [if_pos hc1] at h; cases h
          · rw [if_neg hc1] at h
            rw [if_neg hc1]
            by_cases hc2 : (!card.isFaceUp) = true
            · rw [if_pos hc2] at h; cases h
            · rw [if_neg hc2] at h
              rw [if_neg hc2]
              cases hf : s.findValidFoundationPile card with
              | none => rw [hf] at h; cases h
              | some target =>
                rw [hf] at h
                simp only [Option.some.injEq, Prod.mk.injEq] at h
                obtain ⟨rfl, rfl, rfl⟩ := h
                have hne := findValidFoundationPile_ne s card pileRef target pile hp htop hf
                have hnil : pile ≠ [] := by
                  intro hnil
                  rw [hnil] at htop
                  simp at htop
                have htp : ∃ tp, s.pileAt target = some tp := by
                  unfold Solitaire.findValidFoundationPile at hf
                  cases hfind : findFoundationFrom card 0 s.foundations with
                  | none => rw [hfind] at hf; cases hf
                  | some k =>
                    rw [hfind] at hf
                    simp only [Option.some.injEq] at hf
                    obtain ⟨-, ⟨f, hfk, -⟩, -⟩ :=
                      findFoundationFrom_some card s.foundations 0 k hfind
                    rw [← hf]
                    exact ⟨f, by simpa [Solitaire.pileAt] using hfk⟩
                refine ⟨hne, htp, ⟨pile, hp, hnil, rfl⟩, ?_⟩
                simp only
                unfold Solitaire.moveTopAt
                rw [hp]
                simp only
                cases s.moveCardsAt pileRef target ((pile.length : Int) - 1) (-1) <;> rfl

theorem moveCardsAt_out_of_range (s : Solitaire) (a b : PileRef) (i : Int)
    (sp tp : List Card) (hne : a ≠ b) (hs : s.pileAt a = some sp) (ht : s.pileAt b = some tp)
    (hout : i < 0 ∨ i ≥ (sp.length : Int)) :
    ∃ s1, s.moveCardsAt a b i (-1) = some (false, s1) ∧ ∀ r, s1.pileAt r = s.pileAt r := by
  have hmove : moveCards sp tp i (-1) = some ⟨false, sp, tp⟩ := by
    unfold moveCards
    rw [if_pos hout]
  refine ⟨_, moveCardsAt_distinct s a b sp tp i (-1) _ hne hs ht hmove, ?_⟩
  intro r
  simp only
  by_cases hrb : r = b
  · subst hrb
    have ht2 : (s.setPile a sp).pileAt r = some tp := by
      rw [pileAt_setPile_ne _ _ _ _ hne, ht]
    rw [pileAt_setPile_self _ _ _ _ ht2, ht]
  · rw [pileAt_setPile_ne _ _ _ _ (Ne.symm hrb)]
    by_cases hra : r = a
    · subst hra
      rw [pileAt_setPile_self _ _ _ _ hs, hs]
    · rw [pileAt_setPile_ne _ _ _ _ (Ne.symm hra)]

/-- C22, amended: every call of `moveCards` made by `handleMouseUp` or
`handleDoubleClick` has a source pile distinct from its target pile, and
`canMoveToFoundation c P` is false when `c` is the top card of `P`.  The call of
`handleDoubleClick` starts at `size - 1` of a non-empty pile and returns true.  The call
of `handleMouseUp` has its start index inside the source and returns true when the drag
state matches its source (lifted cards `source[draggedStartIndex..]` of a tableau pile,
or the top card of the waste); when its start index is outside the source, `moveCards`
returns false and every pile is unchanged. -/
theorem moveCards_calls (s : Solitaire) (pos : Pointer) (now : Int) :
    (∀ a b i, s.mouseUpCall pos = some (a, b, i) →
      a ≠ b ∧
      s.handleMouseUp pos = (s.moveCardsAt a b i (-1)).map fun r => r.2.clearDrag) ∧
    (∀ a b i, s.doubleClickCall pos now = some (a, b, i) →
      a ≠ b ∧
      (s.handleDoubleClick pos now = (s.moveCardsAt a b i (-1)).map fun r => r.2) ∧
      ∃ sourcePile s1, s.pileAt a = some sourcePile ∧
        0 ≤ i ∧ i < (sourcePile.length : Int) ∧
        s.moveCardsAt a b i (-1) = some (true, s1)) ∧
    (∀ (c : Card) (pile : List Card), pile.getLast? = some c →
      canMoveToFoundation c pile = false) ∧
    (∀ a b i sourcePile, s.mouseUpCall pos = some (a, b, i) →
      s.pileAt a = some sourcePile →
      ((∃ k, a = PileRef.tableau k ∧ 0 ≤ s.draggedStartIndex ∧
          s.draggedStartIndex < (sourcePile.length : Int) ∧
          s.draggedCards = sourcePile.drop s.draggedStartIndex.toNat) ∨
        (a = PileRef.waste ∧ ∃ top, sourcePile.getLast? = some top ∧
          s.draggedCards = [top])) →
      0 ≤ i ∧ i < (sourcePile.length : Int) ∧
        ∃ s1, s.moveCardsAt a b i (-1) = some (true, s1)) ∧
    (∀ a b i sourcePile, s.mouseUpCall pos = some (a, b, i) →
      s.pileAt a = some sourcePile → (i < 0 ∨ i ≥ (sourcePile.length : Int)) →
      ∃ s1, s.moveCardsAt a b i (-1) = some (false, s1) ∧ ∀ r, s1.pileAt r = s.pileAt r) := by
  have inRange : ∀ (a b : PileRef) (i : Int) (sp tp : List Card), a ≠ b →
      s.pileAt a = some sp → s.pileAt b = some tp → 0 ≤ i → i < (sp.length : Int) →
      ∃ s1, s.moveCardsAt a b i (-1) = some (true, s1) := by
    intro a b i sp tp hne hs ht h0 h1
    obtain ⟨k, rfl⟩ := Int.eq_ofNat_of_zero_le h0
    obtain ⟨s1, hmove, -⟩ := moveCardsAt_default s a b sp tp k hne hs ht (by exact_mod_cast h1)
    exact ⟨s1, hmove⟩
  refine ⟨?_, ?_, ?_, ?_, ?_⟩
  · intro a b i h
    obtain ⟨hne, -, -, -, hup⟩ := mouseUpCall_some s pos a b i h
    exact ⟨hne, hup⟩
  · intro a b i h
    obtain ⟨hne, ⟨tp, htp⟩, ⟨sp, hsp, hnil, hi⟩, hdc⟩ := doubleClickCall_some s pos now a b i h
    have hpos : 0 < sp.length := List.length_pos.2 hnil
    have h0 : 0 ≤ i := by omega
    have h1 : i < (sp.length : Int) := by omega
    obtain ⟨s1, hmove⟩ := inRange a b i sp tp hne hsp htp h0 h1
    exact ⟨hne, hdc, sp, s1, hsp, h0, h1, hmove⟩
  · intro c pile h
    exact canMoveToFoundation_own_top c pile h
  · intro a b i sourcePile h hsp hlift
    obtain ⟨hne, -, ⟨tp, htp⟩, hidx, -⟩ := mouseUpCall_some s pos a b i h
    have hrange : 0 ≤ i ∧ i < (sourcePile.length : Int) := by
      rcases hlift with ⟨k, hk, h0, h1, -⟩ | ⟨hw, top, htop, -⟩
      · rcases hidx with ⟨sp, hsp2, hi⟩ | ⟨-, hi⟩
        · rw [hsp] at hsp2
          cases hsp2
          omega
        · omega
      · have hpos : 0 < sourcePile.length := by
          apply List.length_pos.2
          intro hnil
          rw [hnil] at htop
          simp at htop
        rcases hidx with ⟨sp, hsp2, hi⟩ | ⟨hnw, -⟩
        · rw [hsp] at hsp2
          cases hsp2
          omega
        · exact absurd hw hnw
    obtain ⟨s1, hmove⟩ := inRange a b i sourcePile tp hne hsp htp hrange.1 hrange.2
    exact ⟨hrange.1, hrange.2, s1, hmove⟩
  · intro a b i sourcePile h hsp hout
    obtain ⟨hne, -, ⟨tp, htp⟩, -, -⟩ := mouseUpCall_some s pos a b i h
    exact moveCardsAt_out_of_range s a b i sourcePile tp hne hsp htp hout

theorem moveCards_calls_witness :
    queenLifted.mouseUpCall onFirstTableauCard =
      some (PileRef.tableau 6, PileRef.tableau 0, 6) ∧
    ((0 : Int) ≤ 6 ∧ (6 : Int) < (seventhPile.length : Int) ∧
      ∃ s1, queenLifted.moveCardsAt (PileRef.tableau 6) (PileRef.tableau 0) 6 (-1) =
        some (true, s1)) ∧
    aceOnWaste.doubleClickCall onWaste 10500 =
      some (PileRef.waste, PileRef.foundation 0, 0) ∧
    PileRef.waste ≠ PileRef.foundation 0 :=
  ⟨by decide,
    (moveCards_calls queenLifted onFirstTableauCard 0).2.2.2.1 (PileRef.tableau 6)
      (PileRef.tableau 0) 6 seventhPile (by decide) (by decide)
      (Or.inl ⟨6, rfl, by decide, by decide, by decide⟩),
    by decide,
    ((moveCards_calls aceOnWaste onWaste 10500).2.1 PileRef.waste (PileRef.foundation 0) 0
      (by decide)).1⟩

/-- C22 as stated fails on a drag state that no longer matches its source: after the ace
of hearts, lifted from the waste, has been sent to foundation 0 by the double click of
the same press, the waste is empty; the pointer-up on the empty foundation 1 calls
`moveCards(waste, foundation 1, waste.size() - 1)` with start index -1, outside the
source, and the call returns false. -/
theorem stale_drag_call_returns_false :
    Reachable staleDrag ∧ staleDrag.waste = [] ∧ staleDrag.draggedCards = [aceOfHearts] ∧
      staleDrag.draggedSourcePile = some PileRef.waste ∧
      staleDrag.mouseUpCall onSecondFoundation =
        some (PileRef.waste, PileRef.foundation 1, -1) ∧
      (staleDrag.moveCardsAt PileRef.waste (PileRef.foundation 1) (-1) (-1)).map Prod.fst =
        some false ∧
      staleDrag.handleMouseUp onSecondFoundation = some staleDrag.clearDrag := by
  refine ⟨?_, by decide, by decide, by decide, by decide, by decide, by decide⟩
  have h : (riggedGame.bind fun s => s.run liftThenDoubleClick).isSome = true := by decide
  cases hg : riggedGame with
  | none => rw [hg] at h; cases h
  | some s0 =>
    rw [hg] at h
    simp only [Option.some_bind] at h
    cases hr : s0.run liftThenDoubleClick with
    | none => rw [hr] at h; cases h
    | some s1 =>
      have hs : staleDrag = s1 := by
        simp only [staleDrag, hg, Option.some_bind, hr, Option.getD_some]
      rw [hs]
      exact reachable_run _ s0 s1 (riggedGame_reachable s0 hg) hr


/-! ### A lifted group whose source changed before the drop -/

theorem stackedDeck_perm : stackedDeck.Perm plainDeck := by decide

theorem stackedAssets_shuffle_perm (deck : List Card) :
    (stackedAssets.shuffle deck).Perm deck := by
  show (if deck = plainDeck then stackedDeck else deck).Perm deck
  by_cases h : deck = plainDeck
  · rw [if_pos h, h]
    exact stackedDeck_perm
  · rw [if_neg h]

theorem groupStale_reachable : Reachable groupStale := by
  have h : ((stackedGame.bind fun s => s.run liftTwoAndAce).bind fun s =>
      s.handleDoubleClick onSecondPileTop 2000).isSome = true := by decide
  cases hg : stackedGame with
  | none => rw [hg] at h; cases h
  | some s0 =>
    rw [hg] at h
    simp only [Option.some_bind] at h
    cases hr : s0.run liftTwoAndAce with
    | none => rw [hr] at h; cases h
    | some s1 =>
      rw [hr] at h
      simp only [Option.some_bind] at h
      have hs1 : groupLifted = s1 := by
        simp only [groupLifted, hg, Option.some_bind, hr, Option.getD_some]
      cases hd : s1.handleDoubleClick onSecondPileTop 2000 with
      | none => rw [hd] at h; cases h
      | some s2 =>
        have hs2 : groupStale = s2 := by
          simp only [groupStale, hs1, hd, Option.getD_some]
        rw [hs2]
        have hreach1 : Reachable s1 :=
          reachable_run _ s0 s1
            (Reachable.newGame stackedAssets blank s0 (fun _ _ => rfl)
              stackedAssets_shuffle_perm hg) hr
        exact Reachable.event s1 s2 (Event.doubleClick onSecondPileTop 2000) hreach1 hd

/-- C12 as stated fails when the source changed between the lift and the drop: the two
of spades and the ace of hearts are lifted from tableau pile 1 at index 1; the double
click of the same press sends the ace to foundation 0; the pointer-up on tableau pile 2,
whose top, the three of diamonds, accepts the two of spades, appends the two alone, not
the whole lifted group. -/
theorem stale_group_moves_in_part :
    Reachable groupStale ∧
    groupLifted.tableau[1]? = some [⟨Suit.spades, 12, false⟩, ⟨Suit.spades, 2, true⟩,
      ⟨Suit.hearts, 1, true⟩] ∧
    groupLifted.draggedCards = [⟨Suit.spades, 2, true⟩, ⟨Suit.hearts, 1, true⟩] ∧
    groupLifted.draggedSourcePile = some (PileRef.tableau 1) ∧
    groupLifted.draggedStartIndex = 1 ∧
    groupStale.draggedCards = [⟨Suit.spades, 2, true⟩, ⟨Suit.hearts, 1, true⟩] ∧
    groupStale.draggedSourcePile = some (PileRef.tableau 1) ∧
    groupStale.draggedStartIndex = 1 ∧
    groupStale.tableau[1]? = some [⟨Suit.spades, 12, false⟩, ⟨Suit.spades, 2, true⟩] ∧
    groupStale.tableau[2]? = some [⟨Suit.spades, 11, false⟩, ⟨Suit.spades, 5, false⟩,
      ⟨Suit.diamonds, 3, true⟩] ∧
    groupStale.getPileAtPos onThirdPileTop = some (some (PileRef.tableau 2)) ∧
    canMoveToTableau ⟨Suit.spades, 2, true⟩ [⟨Suit.spades, 11, false⟩,
      ⟨Suit.spades, 5, false⟩, ⟨Suit.diamonds, 3, true⟩] = true ∧
    ((groupStale.handleMouseUp onThirdPileTop).map fun s => s.tableau[2]?) =
      some (some [⟨Suit.spades, 11, false⟩, ⟨Suit.spades, 5, false⟩,
        ⟨Suit.diamonds, 3, true⟩, ⟨Suit.spades, 2, true⟩]) ∧
    ((groupStale.handleMouseUp onThirdPileTop).map fun s => s.tableau[2]?) ≠
      some (some ([⟨Suit.spades, 11, false⟩, ⟨Suit.spades, 5, false⟩,
        ⟨Suit.diamonds, 3, true⟩] ++ groupStale.draggedCards)) := by
  refine ⟨groupStale_reachable, ?_⟩
  decide

end Klondike
